import Mathlib

/-!
# minibox

A shallow embedding of `minibox.go`: the command `run` that attaches a disk
image to a loop device, mounts it, forks, and in the child pivots the root,
drops privileges and executes an entry program, while the parent waits for the
child and tears the loop device down.

The operating system is an oracle (`Env`) that answers every system call; the
embedding records each call in a trace, so that statements about which calls
happen, and in which order, are statements about lists.

Strings are Lean strings; the source inspects them only at the ASCII characters
`-`, `=` and NUL, where bytes and characters agree.
-/

namespace Minibox

/-! ## Errors -/

/-- A `syscall.Errno`. -/
abbrev Errno := Nat

/-- An operand of a format verb in `Wrapf` / `Errorf`. -/
inductive Arg where
  | str (s : String)
  | errno (e : Errno)
  | signal (n : Int)
  | status (w : Nat)
  deriving DecidableEq, Repr

/-- A Go `error` value as built in `run`: an errno returned by package `unix`,
the `*os.PathError` that package `os` returns (operation, path, errno), an error
of package `errors` (`Wrap`, `Wrapf`, `New`, `Errorf`), kept as the format with
its operands. -/
inductive Error where
  | errno (e : Errno)
  | pathError (op : String) (path : String) (e : Errno)
  | wrap (cause : Error) (format : String) (args : List Arg)
  | new (format : String) (args : List Arg)
  deriving DecidableEq, Repr

/-! ## Constants taken from the C headers by cgo -/

def CLONE_FS : Nat := 0x200
def CLONE_NEWNS : Nat := 0x20000
def LOOP_CTL_GET_FREE : Nat := 0x4C82
def LOOP_SET_FD : Nat := 0x4C00
def LOOP_CLR_FD : Nat := 0x4C01
def MNT_DETACH : Nat := 2
def O_RDWR : Nat := 2

/-! ## `unix.WaitStatus` -/

/-- A `unix.WaitStatus`, a `uint32`. -/
abbrev WaitStatus := Nat

namespace WaitStatus

def mask : Nat := 0x7F
def core : Nat := 0x80
def exited : Nat := 0x00
def stopped : Nat := 0x7F
def shift : Nat := 8

def Exited (w : WaitStatus) : Bool := w &&& mask == exited

def Signaled (w : WaitStatus) : Bool := w &&& mask != stopped && w &&& mask != exited

def Stopped (w : WaitStatus) : Bool := w &&& 0xFF == stopped

def Continued (w : WaitStatus) : Bool := w == 0xFFFF

def ExitStatus (w : WaitStatus) : Int :=
  if !Exited w then -1 else ((w >>> shift) &&& 0xFF : Nat)

def Signal (w : WaitStatus) : Int :=
  if !Signaled w then -1 else ((w &&& mask : Nat) : Int)

end WaitStatus

/-! ## Integer conversions -/

/-- The conversion `uintptr(i)` of an `int`, on a 64-bit target. -/
def toUintptr (i : Int) : Nat := (i % 2 ^ 64).toNat

/-- The conversion `int(p)` of a `uintptr`, on a 64-bit target. -/
def toInt (p : Nat) : Int :=
  if p % 2 ^ 64 < 2 ^ 63 then (p % 2 ^ 64 : Nat) else (p % 2 ^ 64 : Nat) - 2 ^ 64

/-! ## The trace of observable operations -/

/-- What package `log` is asked to print: an error or a plain string. -/
inductive Msg where
  | err (e : Error)
  | text (s : String)
  deriving DecidableEq, Repr

/-- What a run does to the outside world, in order. -/
inductive Op where
  | flagError (msg : String) (operand : String)
  | usage (name : String)
  | printDefaults
  | unshare (flags : Nat)
  | openFile (path : String) (mode : Nat) (perm : Nat)
  | ioctlGetInt (fd : Int) (req : Nat)
  | ioctlSetInt (fd : Int) (req : Nat) (value : Int)
  | mount (source target fstype : String) (flags : Nat) (data : String)
  | fork
  | mkdir (path : String) (perm : Nat)
  | pivotRoot (newRoot putOld : String)
  | chdir (path : String)
  | unmount (target : String) (flags : Nat)
  | remove (path : String)
  | setgid (gid : Nat)
  | setuid (uid : Nat)
  | execve (path : List Char) (argv : List (Option (List Char)))
  | perror (s : String)
  | logFatal (msg : Msg)
  | logPrint (msg : Msg)
  | wait4 (pid : Int)
  | close (fd : Int)
  deriving DecidableEq, Repr

/-- How the process leaves `run`. -/
inductive Outcome where
  /-- The function `run` returns its two results to `main`. -/
  | returned (exitCode : Int) (err : Option Error)
  /-- The process terminates inside `run` (`os.Exit`, `log.Fatal`, `exit`). -/
  | exited (status : Int)
  /-- A successful `execve` replaced the process image. -/
  | execed
  /-- The `wait4` call never returns. -/
  | blocked
  /-- A Go run-time panic (`args[0]` on an empty slice). -/
  | panicked
  /-- Undefined behaviour in the C helper (a read outside its buffer). -/
  | undefined
  deriving DecidableEq, Repr

/-- A run: how it ended and what it did. -/
structure Run where
  outcome : Outcome
  trace : List Op
  deriving DecidableEq, Repr

/-! ## Library functions taken as parameters -/

/-- Functions of the Go standard library that `run` calls and whose text is not
part of the program: `strconv.ParseInt(s, 0, 64)` as used by integer flags
(`none` when it reports an error) and `filepath.Join` of two elements. -/
structure Lib where
  parseInt : String → Option Int
  join : String → String → String

/-! ## Package `flag` -/

/-- The value held by a flag. -/
inductive Value where
  | string (s : String)
  | int (i : Int)
  deriving DecidableEq, Repr

/-- A `flag.FlagSet`: its name, the defined flags with their current values,
and the arguments left after the flags. -/
structure FlagSet where
  name : String
  formal : List (String × Value)
  args : List String
  parsed : Bool
  deriving DecidableEq, Repr

namespace FlagSet

/-- The constructor `flag.NewFlagSet(name, flag.ExitOnError)`. -/
def NewFlagSet (name : String) : FlagSet :=
  ⟨name, [], [], false⟩

/-- The method `f.String(name, value, usage)`: defines a string flag with a default. -/
def stringFlag (f : FlagSet) (name : String) (value : String) : FlagSet :=
  { f with formal := f.formal ++ [(name, Value.string value)] }

/-- The method `f.Int(name, value, usage)`: defines an integer flag with a default. -/
def intFlag (f : FlagSet) (name : String) (value : Int) : FlagSet :=
  { f with formal := f.formal ++ [(name, Value.int value)] }

/-- The method `f.Args()`: the non-flag arguments. -/
def Args (f : FlagSet) : List String := f.args

/-- The lookup `f.formal[name]`. -/
def lookup (formal : List (String × Value)) (name : String) : Option Value :=
  match formal with
  | [] => none
  | (n, v) :: rest => if n = name then some v else lookup rest name

/-- Stores a new value for a defined flag. -/
def store (formal : List (String × Value)) (name : String) (v : Value) :
    List (String × Value) :=
  match formal with
  | [] => []
  | (n, w) :: rest => if n = name then (n, v) :: rest else (n, w) :: store rest name v

/-- Dereferences the pointer returned by `f.String`. -/
def getString (f : FlagSet) (name : String) : String :=
  match lookup f.formal name with
  | some (Value.string s) => s
  | _ => ""

/-- Dereferences the pointer returned by `f.Int`. -/
def getInt (f : FlagSet) (name : String) : Int :=
  match lookup f.formal name with
  | some (Value.int i) => i
  | _ => 0

end FlagSet

/-- The first `=` of a flag name and what stands on either side of it. -/
def findEq : List Char → Option (List Char × List Char)
  | [] => none
  | c :: cs =>
    if c = '=' then some ([], cs)
    else match findEq cs with
      | some (a, b) => some (c :: a, b)
      | none => none

/-- What `parseOne` makes of the first argument. -/
inductive Token where
  /-- Not a flag: shorter than two bytes or not starting with `-`. -/
  | positional
  /-- The argument `--`, which ends the flags. -/
  | terminator
  /-- An empty name, or a name starting with `-` or `=`. -/
  | bad
  /-- A flag name with, if it had the form `name=value`, its value. -/
  | flag (name : String) (value : Option String)
  deriving DecidableEq, Repr

/-- The part of `parseOne` that splits a name from its value; `=` cannot be
first. -/
def scanName (name : List Char) : Token :=
  match name with
  | [] => Token.bad
  | c :: cs =>
    if c = '-' ∨ c = '=' then Token.bad
    else match findEq cs with
      | some (a, v) => Token.flag (String.mk (c :: a)) (some (String.mk v))
      | none => Token.flag (String.mk (c :: cs)) none

/-- The first half of `parseOne`: the minus signs and the name. -/
def scanFlag (s : String) : Token :=
  match s.data with
  | '-' :: c :: cs =>
    if c = '-' then
      if cs = [] then Token.terminator else scanName cs
    else scanName (c :: cs)
  | _ => Token.positional

/-- The result of `Parse` under `flag.ExitOnError`: the flag set after parsing,
or the process exit status chosen by the package together with what it printed. -/
inductive Parsed where
  | ok (f : FlagSet)
  | exit (status : Int) (printed : List Op)
  deriving DecidableEq, Repr

/-- The method `value.Set(s)` for the two kinds of flag: a string flag takes any value, an
integer flag takes what `strconv.ParseInt` accepts. -/
def Value.set (lib : Lib) (old : Value) (s : String) : Option Value :=
  match old with
  | Value.string _ => some (Value.string s)
  | Value.int _ => (lib.parseInt s).map Value.int

/-- The loop of `f.Parse(arguments)` with `flag.ExitOnError`: `parseOne` repeated until it
sees no flag. An error other than help exits with status 2 after printing the
error and the usage; `-h` and `-help` print the usage and exit with status 0. -/
def FlagSet.parseLoop (lib : Lib) (f : FlagSet) : List String → Parsed
  | [] => Parsed.ok { f with args := [], parsed := true }
  | s :: rest =>
    match scanFlag s with
    | Token.positional => Parsed.ok { f with args := s :: rest, parsed := true }
    | Token.terminator => Parsed.ok { f with args := rest, parsed := true }
    | Token.bad =>
      Parsed.exit 2 [Op.flagError "bad flag syntax: %s" s, Op.usage f.name]
    | Token.flag name value =>
      match FlagSet.lookup f.formal name with
      | none =>
        if name = "help" ∨ name = "h" then Parsed.exit 0 [Op.usage f.name]
        else Parsed.exit 2
          [Op.flagError "flag provided but not defined: -%s" name, Op.usage f.name]
      | some old =>
        match value with
        | some v =>
          match Value.set lib old v with
          | none => Parsed.exit 2
              [Op.flagError "invalid value %q for flag -%s: %v" v, Op.usage f.name]
          | some new =>
            FlagSet.parseLoop lib { f with formal := FlagSet.store f.formal name new } rest
        | none =>
          match rest with
          | [] => Parsed.exit 2
              [Op.flagError "flag needs an argument: -%s" name, Op.usage f.name]
          | v :: rest2 =>
            match Value.set lib old v with
            | none => Parsed.exit 2
                [Op.flagError "invalid value %q for flag -%s: %v" v, Op.usage f.name]
            | some new =>
              FlagSet.parseLoop lib
                { f with formal := FlagSet.store f.formal name new } rest2

/-- The method `f.Parse(arguments)`. -/
def FlagSet.Parse (lib : Lib) (f : FlagSet) (arguments : List String) : Parsed :=
  FlagSet.parseLoop lib f arguments

/-- The package-level `flag.CommandLine`: the default flag set, on which this
program defines no flag and never calls `Parse`. -/
def CommandLine (osArgs : List String) : FlagSet :=
  FlagSet.NewFlagSet (osArgs.headD "")

/-- The package-level `flag.Args()`: the non-flag arguments of
`flag.CommandLine`. -/
def flagArgs (osArgs : List String) : List String :=
  (CommandLine osArgs).Args

/-! ## The C helper `execWrapper` -/

/-- The NUL character that ends a C string. -/
def NUL : Char := Char.ofNat 0

/-- The conversion `C.CString(s)`: a fresh buffer holding the string and a terminating NUL. -/
def CString (s : String) : List Char := s.data ++ [NUL]

/-- The function `strings.Join(elems, sep)`. -/
def stringsJoin : List String → String → String
  | [], _ => ""
  | [a], _ => a
  | a :: b :: rest, sep => a ++ sep ++ stringsJoin (b :: rest) sep

/-- The argument `cArgstr` that `run` passes to `execWrapper`:
`C.CString(strings.Join(args, "\x00") + "\x00")`. -/
def cArgstr (args : List String) : List Char :=
  CString (stringsJoin args (String.singleton NUL) ++ String.singleton NUL)

/-- The function `strlen` on the bytes from a position to the end of the buffer: `none` when
no NUL is found before the buffer ends, that is, when the scan would leave it. -/
def strlen : List Char → Option Nat
  | [] => none
  | c :: cs =>
    if c = NUL then some 0
    else match strlen cs with
      | some n => some (n + 1)
      | none => none

/-- The call `strlen(p)` for a pointer `p` at an offset into a buffer. -/
def strlenAt (mem : List Char) (p : Nat) : Option Nat := strlen (mem.drop p)

/-- A `char*` held in `argv`: the `path` argument or a position in `argstr`. -/
inductive Ptr where
  | path
  | argstr (offset : Nat)
  deriving DecidableEq, Repr

/-- The loop of `execWrapper`: `argc` times, store the current `argstr` and
advance it past the next NUL. -/
def fillArgv (mem : List Char) : Nat → Nat → Option (List (Option Ptr))
  | 0, _ => some []
  | n + 1, argstr =>
    match strlenAt mem argstr with
    | none => none
    | some len =>
      match fillArgv mem n (argstr + len + 1) with
      | none => none
      | some rest => some (some (Ptr.argstr argstr) :: rest)

/-- The vector `argv` that `execWrapper` builds: `path`, the `argc` pointers
into `argstr`, and `NULL` (here `none`). The result is `none` when `strlen`
reads outside the buffer `argstr`. The allocation is taken to succeed and
`argc` to be non-negative. -/
def execWrapperArgv (argc : Nat) (argstr : List Char) : Option (List (Option Ptr)) :=
  match fillArgv argstr argc 0 with
  | none => none
  | some filled => some (some Ptr.path :: (filled ++ [none]))

/-- The C string at a position of a buffer, as `execve` reads it. -/
def cstr (mem : List Char) (p : Nat) : Option (List Char) :=
  match strlenAt mem p with
  | none => none
  | some n => some ((mem.drop p).take n)

/-- The string an entry of `argv` points to; `NULL` points to nothing. -/
def deref (path argstr : List Char) : Option Ptr → Option (Option (List Char))
  | none => some none
  | some Ptr.path =>
    match cstr path 0 with
    | some s => some (some s)
    | none => none
  | some (Ptr.argstr p) =>
    match cstr argstr p with
    | some s => some (some s)
    | none => none

/-- All entries of `argv` read as strings. -/
def derefAll (path argstr : List Char) : List (Option Ptr) → Option (List (Option (List Char)))
  | [] => some []
  | p :: ps =>
    match deref path argstr p, derefAll path argstr ps with
    | some s, some ss => some (s :: ss)
    | _, _ => none

/-- The C function `execWrapper(path, argc, argstr)`: builds `argv` and calls `execve`; when
`execve` returns, prints with `perror` and exits with status 1. -/
def execWrapper (execve : Option Errno) (path : List Char) (argc : Nat)
    (argstr : List Char) : Run :=
  match execWrapperArgv argc argstr with
  | none => ⟨Outcome.undefined, []⟩
  | some argv =>
    match cstr path 0, derefAll path argstr argv with
    | some p, some strs =>
      match execve with
      | none => ⟨Outcome.execed, [Op.execve p strs]⟩
      | some _ => ⟨Outcome.exited 1, [Op.execve p strs, Op.perror "execv"]⟩
    | _, _ => ⟨Outcome.undefined, []⟩

/-! ## The operating system as an oracle -/

/-- The three results of `unix.RawSyscall`. On failure the kernel interface sets
`r1` to the all-ones word and `err` to the error number. -/
structure RawResult where
  r1 : Nat
  r2 : Nat
  err : Errno

/-- The answers of the operating system to the calls of one run, one field per
call site of `run`. A call that returns only an error answers `none` on
success. The three `unix.Open` calls and the two `ioctl` reads answer an error
or the integer they return; `unix.Close` answers by descriptor; `waits` holds
the successive results of `unix.Wait4`, an error or the status written, and
when it is used up the next `wait4` does not return. The raw system calls
`fork`, `setgid` and `setuid` answer their three results. -/
structure Env where
  unshare : Option Errno
  openLoopctl : Except Errno Int
  getFree : Except Errno Int
  openLoop : Except Errno Int
  openImage : Except Errno Int
  setFd : Option Errno
  mount : Option Errno
  fork : RawResult
  waits : List (Except Errno WaitStatus)
  clrFd : Option Errno
  close : Int → Option Errno
  pivotRoot : Option Errno
  chdir : Option Errno
  unmount : Option Errno
  remove : Option Errno
  setgid : RawResult
  setuid : RawResult
  execve : Option Errno

/-! ## `run` -/

/-- The named results of `run` and the trace so far, as the deferred calls see
and change them. -/
structure Frame where
  trace : List Op
  exitCode : Int
  err : Option Error

/-- The closure `closeFn` of `run`: closes the descriptor and, when no error is
pending, records the close error. -/
def closeFn (env : Env) (name : String) (fd : Int) (f : Frame) : Frame :=
  let f := { f with trace := f.trace ++ [Op.close fd] }
  match env.close fd with
  | some closeErr =>
    if f.err = none then
      { f with err := some (Error.wrap (Error.errno closeErr) "close %s" [Arg.str name]) }
    else f
  | none => f

/-- The deferred function that detaches the loop device with `LOOP_CLR_FD` and,
when no error is pending, records its error. -/
def clearFn (env : Env) (loopFd : Int) (f : Frame) : Frame :=
  let f := { f with trace := f.trace ++ [Op.ioctlGetInt loopFd LOOP_CLR_FD] }
  match env.clrFd with
  | some clearErr => if f.err = none then { f with err := some (Error.errno clearErr) } else f
  | none => f

/-- A `return exitCode, err` of `run`: the results are set, then the deferred
calls run, last deferred first, and what they leave is returned. -/
def leave (defers : List (Frame → Frame)) (trace : List Op) (exitCode : Int)
    (err : Option Error) : Run :=
  let f := defers.foldl (fun f d => d f) ⟨trace, exitCode, err⟩
  ⟨Outcome.returned f.exitCode f.err, f.trace⟩

/-- The call `log.Fatal(v)`: prints and exits with status 1; deferred calls do not run. -/
def logFatal (trace : List Op) (v : Msg) : Run :=
  ⟨Outcome.exited 1, trace ++ [Op.logFatal v]⟩

/-- The child branch of `run` (`pid == 0`): stage and pivot the root, drop the
group and user identity, execute the entry program. The result of `os.Mkdir` is
discarded by the source; `os.Chdir` and `os.Remove` fail with an `*os.PathError`,
`unix.PivotRoot` and `unix.Unmount` with an errno. The results `ret` of the two raw system calls are
unsigned (`uintptr`), and so is the comparison `ret < 0`. -/
def child (lib : Lib) (env : Env) (osArgs : List String) (dir entry : String)
    (uid gid : Int) : Run :=
  let oldRootDir := lib.join dir ".old_root"
  let t := [Op.mkdir oldRootDir 0o700]
  let t := t ++ [Op.pivotRoot dir oldRootDir]
  match env.pivotRoot with
  | some e => logFatal t (Msg.err (Error.wrap (Error.errno e) "pivot_root" []))
  | none =>
    let t := t ++ [Op.chdir "/"]
    match env.chdir with
    | some e => logFatal t (Msg.err (Error.wrap (Error.pathError "chdir" "/" e) "chdir" []))
    | none =>
      let t := t ++ [Op.unmount "/.old_root" MNT_DETACH]
      match env.unmount with
      | some e => logFatal t (Msg.err (Error.wrap (Error.errno e) "unmount" []))
      | none =>
        let t := t ++ [Op.remove "/.old_root"]
        match env.remove with
        | some e => logFatal t (Msg.err (Error.wrap (Error.pathError "remove" "/.old_root" e) "remove" []))
        | none =>
          let t := t ++ [Op.setgid (toUintptr gid)]
          let ret := env.setgid.r1
          if ret < 0 then logFatal t (Msg.text "setgid")
          else
            let t := t ++ [Op.setuid (toUintptr uid)]
            let ret := env.setuid.r1
            if ret < 0 then logFatal t (Msg.text "setuid")
            else
              let cEntry := CString entry
              let cArgc := (flagArgs osArgs).length
              let r := execWrapper env.execve cEntry cArgc (cArgstr (flagArgs osArgs))
              ⟨r.outcome, t ++ r.trace⟩

/-- The loop of the parent: wait for the child and classify the status. When the
oracle has no further answer the call blocks. -/
def waitLoop (defers : List (Frame → Frame)) (pid : Nat) :
    List (Except Errno WaitStatus) → List Op → Run
  | [], t => ⟨Outcome.blocked, t ++ [Op.wait4 (toInt pid)]⟩
  | r :: rest, t =>
    let t := t ++ [Op.wait4 (toInt pid)]
    match r with
    | Except.error e => leave defers t 1 (some (Error.wrap (Error.errno e) "wait4" []))
    | Except.ok status =>
      if WaitStatus.Signaled status then
        leave defers t 1 (some (Error.new "process terminated by signal %v"
          [Arg.signal (WaitStatus.Signal status)]))
      else if WaitStatus.Exited status then
        leave defers t (WaitStatus.ExitStatus status) none
      else if WaitStatus.Stopped status || WaitStatus.Continued status then
        waitLoop defers pid rest t
      else
        leave defers t 1 (some (Error.new "unknown return from wait: %x" [Arg.status status]))

/-- The body of `run` after the arguments are validated: from `unshare` to the
end of the function. The result `pid` of the raw `fork` is unsigned (`uintptr`),
and so is the comparison `pid < 0`. -/
def body (lib : Lib) (env : Env) (osArgs : List String) (dir image fstype entry : String)
    (uid gid : Int) : Run :=
  let t := [Op.unshare (CLONE_FS ||| CLONE_NEWNS)]
  match env.unshare with
  | some e => leave [] t 1 (some (Error.wrap (Error.errno e) "unshare" []))
  | none =>
    let t := t ++ [Op.openFile "/dev/loop-control" O_RDWR 0]
    match env.openLoopctl with
    | Except.error e =>
      leave [] t 1 (some (Error.wrap (Error.errno e) "open /dev/loop-control" [Arg.errno e]))
    | Except.ok loopctlFd =>
      let d1 := [closeFn env "/dev/loop-control" loopctlFd]
      let t := t ++ [Op.ioctlGetInt loopctlFd LOOP_CTL_GET_FREE]
      match env.getFree with
      | Except.error e =>
        leave d1 t 1 (some (Error.wrap (Error.errno e) "ioctl LOOP_CTL_GET_FREE" []))
      | Except.ok devNum =>
        let loopDevName := "/dev/loop" ++ toString devNum
        let t := t ++ [Op.openFile loopDevName O_RDWR 0]
        match env.openLoop with
        | Except.error e =>
          leave d1 t 1 (some (Error.wrap (Error.errno e) "open %s" [Arg.str loopDevName]))
        | Except.ok loopFd =>
          let d2 := closeFn env loopDevName loopFd :: d1
          let t := t ++ [Op.openFile image O_RDWR 0]
          match env.openImage with
          | Except.error e =>
            leave d2 t 1 (some (Error.wrap (Error.errno e) "open %s" [Arg.str image]))
          | Except.ok imageFd =>
            let d3 := closeFn env image imageFd :: d2
            let t := t ++ [Op.ioctlSetInt loopFd LOOP_SET_FD imageFd]
            match env.setFd with
            | some e => leave d3 t 1 (some (Error.wrap (Error.errno e) "ioctl LOOP_SET_FD" []))
            | none =>
              let d4 := clearFn env loopFd :: d3
              let t := t ++ [Op.mount loopDevName dir fstype 0 ""]
              match env.mount with
              | some e => leave d4 t 1 (some (Error.wrap (Error.errno e) "mount" []))
              | none =>
                let t := t ++ [Op.fork]
                let pid := env.fork.r1
                if pid < 0 then leave d4 t 1 (some (Error.new "fork" []))
                else if pid = 0 then
                  let r := child lib env osArgs dir entry uid gid
                  ⟨r.outcome, t ++ r.trace⟩
                else waitLoop d4 pid env.waits t

/-- The flag set `flags` that `run` defines before it parses: four string flags
that default to the empty string and two integer flags that default to -1. -/
def runFlags (name : String) : FlagSet :=
  let flags := FlagSet.NewFlagSet name
  let flags := flags.stringFlag "dir" ""
  let flags := flags.stringFlag "image" ""
  let flags := flags.stringFlag "fstype" ""
  let flags := flags.stringFlag "entry" ""
  let flags := flags.intFlag "uid" (-1)
  flags.intFlag "gid" (-1)

/-- The function `run`: it defines and parses the flags, checks the six values,
and goes on with `body`. Under `flag.ExitOnError` the method `Parse` returns no
error (it exits instead), so the `return 1, err` after it is never taken. The
deferred calls are kept as a list, newest first, and run at every `return`;
they do not run when the process exits or is replaced. -/
def run (lib : Lib) (env : Env) (args : List String) : Run :=
  match args with
  | [] => ⟨Outcome.panicked, []⟩
  | name :: rest =>
    let flags := runFlags name
    match flags.Parse lib rest with
    | Parsed.exit status printed => ⟨Outcome.exited status, printed⟩
    | Parsed.ok flags =>
      let dir := flags.getString "dir"
      let image := flags.getString "image"
      let fstype := flags.getString "fstype"
      let entry := flags.getString "entry"
      let uid := flags.getInt "uid"
      let gid := flags.getInt "gid"
      if dir = "" ∨ image = "" ∨ fstype = "" ∨ entry = "" ∨ uid < 0 ∨ gid < 0 then
        ⟨Outcome.exited 1, [Op.printDefaults]⟩
      else body lib env args dir image fstype entry uid gid

/-- The function `main`: runs, prints the error if there is one, and exits with
the exit code. -/
def main (lib : Lib) (env : Env) (osArgs : List String) : Run :=
  let r := run lib env osArgs
  match r.outcome with
  | Outcome.returned exitCode err =>
    match err with
    | some e => ⟨Outcome.exited exitCode, r.trace ++ [Op.logPrint (Msg.err e)]⟩
    | none => ⟨Outcome.exited exitCode, r.trace⟩
  | _ => r

/-! ## Vocabulary of the statements -/

/-- The flag set after parsing when the command line passes the check of `run`
(the parser accepts it, the four strings are non-empty, the two ids are not
negative); `none` otherwise. -/
def accepted (lib : Lib) (args : List String) : Option FlagSet :=
  match args with
  | [] => none
  | name :: rest =>
    match (runFlags name).Parse lib rest with
    | Parsed.exit _ _ => none
    | Parsed.ok flags =>
      if flags.getString "dir" = "" ∨ flags.getString "image" = ""
          ∨ flags.getString "fstype" = "" ∨ flags.getString "entry" = ""
          ∨ flags.getInt "uid" < 0 ∨ flags.getInt "gid" < 0 then none
      else some flags

/-- The setup of `run` succeeds up to and including `LOOP_SET_FD`, with the
descriptors and the device number that the system hands out. -/
structure Attached (env : Env) (loopctlFd devNum loopFd imageFd : Int) : Prop where
  unshare : env.unshare = none
  openLoopctl : env.openLoopctl = Except.ok loopctlFd
  getFree : env.getFree = Except.ok devNum
  openLoop : env.openLoop = Except.ok loopFd
  openImage : env.openImage = Except.ok imageFd
  setFd : env.setFd = none

/-- The name of the loop device, `fmt.Sprintf("/dev/loop%d", devNum)`. -/
def loopDevName (devNum : Int) : String := "/dev/loop" ++ toString devNum

/-- The calls of a setup that succeeds up to and including `LOOP_SET_FD`. -/
def attachTrace (image : String) (loopctlFd devNum loopFd imageFd : Int) : List Op :=
  [Op.unshare (CLONE_FS ||| CLONE_NEWNS),
   Op.openFile "/dev/loop-control" O_RDWR 0,
   Op.ioctlGetInt loopctlFd LOOP_CTL_GET_FREE,
   Op.openFile (loopDevName devNum) O_RDWR 0,
   Op.openFile image O_RDWR 0,
   Op.ioctlSetInt loopFd LOOP_SET_FD imageFd]

/-- The deferred calls pending once `LOOP_SET_FD` has succeeded, last deferred
first. -/
def deferred (env : Env) (image : String) (loopctlFd devNum loopFd imageFd : Int) :
    List (Frame → Frame) :=
  [clearFn env loopFd, closeFn env image imageFd, closeFn env (loopDevName devNum) loopFd,
   closeFn env "/dev/loop-control" loopctlFd]

/-- The teardown calls in the order the deferred calls make them: detach the
loop device, close the image, the loop device and the loop-control descriptors. -/
def teardownOps (loopctlFd loopFd imageFd : Int) : List Op :=
  [Op.ioctlGetInt loopFd LOOP_CLR_FD, Op.close imageFd, Op.close loopFd, Op.close loopctlFd]

/-- The error of the first teardown step that fails, in execution order. -/
def teardownErr (env : Env) (image : String) (loopctlFd devNum loopFd imageFd : Int) :
    Option Error :=
  match env.clrFd with
  | some e => some (Error.errno e)
  | none =>
    match env.close imageFd with
    | some e => some (Error.wrap (Error.errno e) "close %s" [Arg.str image])
    | none =>
      match env.close loopFd with
      | some e => some (Error.wrap (Error.errno e) "close %s" [Arg.str (loopDevName devNum)])
      | none =>
        match env.close loopctlFd with
        | some e => some (Error.wrap (Error.errno e) "close %s" [Arg.str "/dev/loop-control"])
        | none => none

/-- The calls of the root transition of the child, up to and including
`setuid`, in the order of the source. -/
def rootOps (lib : Lib) (dir : String) (uid gid : Int) : List Op :=
  [Op.mkdir (lib.join dir ".old_root") 0o700,
   Op.pivotRoot dir (lib.join dir ".old_root"),
   Op.chdir "/",
   Op.unmount "/.old_root" MNT_DETACH,
   Op.remove "/.old_root",
   Op.setgid (toUintptr gid),
   Op.setuid (toUintptr uid)]

/-- A deferred call leaves the exit code alone and keeps a pending error. -/
def Keeps (d : Frame → Frame) : Prop :=
  ∀ f, (d f).exitCode = f.exitCode ∧ ∀ e, f.err = some e → (d f).err = some e

/-- One of the setup steps before `fork` is answered with a failure. -/
def setupFails (env : Env) : Prop :=
  env.unshare ≠ none ∨ (∃ e, env.openLoopctl = Except.error e)
    ∨ (∃ e, env.getFree = Except.error e) ∨ (∃ e, env.openLoop = Except.error e)
    ∨ (∃ e, env.openImage = Except.error e) ∨ env.setFd ≠ none ∨ env.mount ≠ none

/-- The argument names the flag: the parser reads it as `-name`, `--name`,
`-name=value` or `--name=value`. -/
def namesFlag (name : String) (arg : String) : Bool :=
  match scanFlag arg with
  | Token.flag n _ => n == name
  | _ => false

/-- The flag is absent: no argument of the command line names it. -/
def absent (name : String) (rest : List String) : Bool :=
  rest.all fun a => !namesFlag name a

/-- A teardown call: `LOOP_CLR_FD` or the close of a descriptor. -/
def Op.isTeardown : Op → Bool
  | Op.close _ => true
  | Op.ioctlGetInt _ req => req == LOOP_CLR_FD
  | _ => false

/-- A privileged or resource-acquiring call: `unshare`, `open`, `ioctl`, `mount`
or `fork`. -/
def Op.isPrivileged : Op → Bool
  | Op.unshare _ => true
  | Op.openFile _ _ _ => true
  | Op.ioctlGetInt _ _ => true
  | Op.ioctlSetInt _ _ _ => true
  | Op.mount _ _ _ _ _ => true
  | Op.fork => true
  | _ => false

/-- The value of a string of decimal digits, given the value read so far. -/
def digitsValue : List Char → Nat → Option Nat
  | [], acc => some acc
  | c :: cs, acc =>
    if 48 ≤ c.toNat ∧ c.toNat ≤ 57 then digitsValue cs (10 * acc + (c.toNat - 48)) else none

/-- A reader of plain decimal numerals (no leading zero, optional minus sign,
64-bit range), on which `strconv.ParseInt(s, 0, 64)` gives the same value. -/
def decimalInt (s : String) : Option Int :=
  match s.data with
  | [] => none
  | ['0'] => some 0
  | '0' :: _ => none
  | '-' :: '0' :: _ => none
  | '-' :: d :: ds =>
    match digitsValue (d :: ds) 0 with
    | some n => if n ≤ 2 ^ 63 then some (-(n : Int)) else none
    | none => none
  | d :: ds =>
    match digitsValue (d :: ds) 0 with
    | some n => if n < 2 ^ 63 then some (n : Int) else none
    | none => none

/-- The library used for concrete runs: the decimal reader, and a join that puts
a slash between a clean directory name and a file name, as `filepath.Join`
does on such arguments. -/
def decLib : Lib := ⟨decimalInt, fun a b => a ++ "/" ++ b⟩

/-- A system in which every call succeeds and the child, once stopped and once
continued, exits with status 3. -/
def env0 : Env :=
  { unshare := none, openLoopctl := Except.ok 3, getFree := Except.ok 0,
    openLoop := Except.ok 4, openImage := Except.ok 5, setFd := none, mount := none,
    fork := ⟨1234, 0, 0⟩, waits := [Except.ok 0x137F, Except.ok 0xFFFF, Except.ok 0x300],
    clrFd := none, close := fun _ => none, pivotRoot := none, chdir := none,
    unmount := none, remove := none, setgid := ⟨0, 0, 0⟩, setuid := ⟨0, 0, 0⟩,
    execve := none }

/-- As `env0`, but `mount` fails with `EINVAL`. -/
def envMountFails : Env := { env0 with mount := some 22 }

/-- As `env0`, but the child is stopped and then killed by signal 9. -/
def envKilled : Env := { env0 with waits := [Except.ok 0x137F, Except.ok 9] }

/-- As `env0`, but `LOOP_CLR_FD` fails with `EBUSY` during teardown. -/
def envClrFails : Env := { env0 with clrFd := some 16 }

/-- The flag set after parsing `cmd0`. -/
def flags0 : FlagSet :=
  { name := "minibox",
    formal := [("dir", Value.string "/mnt"), ("image", Value.string "img"),
      ("fstype", Value.string "ext4"), ("entry", Value.string "/bin/ls"),
      ("uid", Value.int 1000), ("gid", Value.int 100)],
    args := ["hello", "-l"], parsed := true }

/-- As `env0`, seen from the child: `fork` returns 0. -/
def envChild : Env := { env0 with fork := ⟨0, 0, 0⟩ }

/-- As `envChild`, but `setgid` fails with `EPERM`: the raw system call returns
the all-ones word and the error number 1. -/
def envSetgidFails : Env := { env0 with fork := ⟨0, 0, 0⟩, setgid := ⟨2 ^ 64 - 1, 0, 1⟩ }

/-- As `env0`, but `fork` fails with `EAGAIN` (the raw system call returns the
all-ones word and the error number 11), after which `wait4` finds no child and
fails with `ECHILD`. -/
def envForkFails : Env :=
  { env0 with fork := ⟨2 ^ 64 - 1, 0, 11⟩, waits := [Except.error 10] }

/-- A valid command line with two trailing positional arguments. -/
def cmd0 : List String :=
  ["minibox", "-dir", "/mnt", "-image", "img", "-fstype", "ext4", "-entry", "/bin/ls",
   "-uid", "1000", "-gid", "100", "hello", "-l"]

/-- The packed form of an argument list: every argument followed by a NUL. -/
def packed : List String → List Char
  | [] => []
  | a :: rest => a.data ++ NUL :: packed rest

/-- The positions at which the arguments start in their packed form, the first
one starting at `p`. -/
def offsets : Nat → List String → List Nat
  | _, [] => []
  | p, a :: rest => p :: offsets (p + a.data.length + 1) rest

/-! ## The C helper -/

theorem strlen_append (s rest : List Char) (h : NUL ∉ s) :
    strlen (s ++ NUL :: rest) = some s.length := by
  induction s with
  | nil => simp [strlen]
  | cons c cs ih =>
    have hc : c ≠ NUL := fun e => h (by simp [e])
    have hcs : NUL ∉ cs := fun e => h (by simp [e])
    simp [strlen, hc, ih hcs]

theorem strlenAt_append (pre s rest : List Char) (h : NUL ∉ s) :
    strlenAt (pre ++ s ++ NUL :: rest) pre.length = some s.length := by
  simp [strlenAt, List.append_assoc, strlen_append s rest h]

theorem cstr_append (pre s rest : List Char) (h : NUL ∉ s) :
    cstr (pre ++ s ++ NUL :: rest) pre.length = some s := by
  unfold cstr
  rw [strlenAt_append pre s rest h]
  simp [List.append_assoc]

theorem singleton_data (c : Char) : (String.singleton c).data = [c] := rfl

theorem join_packed (a : String) (rest : List String) :
    (stringsJoin (a :: rest) (String.singleton NUL) ++ String.singleton NUL).data
      = packed (a :: rest) := by
  induction rest generalizing a with
  | nil => simp only [stringsJoin, packed, String.data_append, singleton_data]
  | cons b rest ih =>
    have hb := ih b
    simp only [String.data_append, singleton_data] at hb
    simp only [stringsJoin, String.data_append, singleton_data, List.append_assoc, hb]
    simp [packed]

theorem fillArgv_packed (args : List String) (pre tail : List Char)
    (h : ∀ a ∈ args, NUL ∉ a.data) :
    fillArgv (pre ++ packed args ++ tail) args.length pre.length
      = some ((offsets pre.length args).map fun p => some (Ptr.argstr p)) := by
  induction args generalizing pre with
  | nil => simp [fillArgv, offsets]
  | cons a rest ih =>
    have ha : NUL ∉ a.data := h a (by simp)
    have hrest : ∀ b ∈ rest, NUL ∉ b.data := fun b hb => h b (by simp [hb])
    have h1 : strlenAt (pre ++ packed (a :: rest) ++ tail) pre.length = some a.data.length := by
      have := strlenAt_append pre a.data (packed rest ++ tail) ha
      simpa [packed, List.append_assoc] using this
    have h2 := ih (pre ++ a.data ++ [NUL]) hrest
    have e : pre ++ a.data ++ [NUL] ++ packed rest ++ tail = pre ++ packed (a :: rest) ++ tail := by
      simp [packed, List.append_assoc]
    rw [e] at h2
    have l : (pre ++ a.data ++ [NUL]).length = pre.length + a.data.length + 1 := by
      simp [Nat.add_assoc]
    rw [l] at h2
    simp only [List.length_cons, fillArgv, h1, h2, offsets, List.map_cons]

theorem offsets_packed (args : List String) (pre tail : List Char)
    (h : ∀ a ∈ args, NUL ∉ a.data) :
    (offsets pre.length args).map (cstr (pre ++ packed args ++ tail))
        = args.map (fun a => some a.data)
      ∧ ∀ p ∈ offsets pre.length args, ∃ n,
          strlenAt (pre ++ packed args ++ tail) p = some n
            ∧ p + n + 1 ≤ pre.length + (packed args).length := by
  induction args generalizing pre with
  | nil => simp [offsets]
  | cons a rest ih =>
    have ha : NUL ∉ a.data := h a (by simp)
    have hrest : ∀ b ∈ rest, NUL ∉ b.data := fun b hb => h b (by simp [hb])
    have e : pre ++ a.data ++ [NUL] ++ packed rest ++ tail = pre ++ packed (a :: rest) ++ tail := by
      simp [packed, List.append_assoc]
    have e2 : pre ++ a.data ++ NUL :: (packed rest ++ tail) = pre ++ packed (a :: rest) ++ tail := by
      simp [packed, List.append_assoc]
    have h1 : strlenAt (pre ++ packed (a :: rest) ++ tail) pre.length = some a.data.length := by
      rw [← e2]; exact strlenAt_append pre a.data (packed rest ++ tail) ha
    have h1c : cstr (pre ++ packed (a :: rest) ++ tail) pre.length = some a.data := by
      rw [← e2]; exact cstr_append pre a.data (packed rest ++ tail) ha
    have l : (pre ++ a.data ++ [NUL]).length = pre.length + a.data.length + 1 := by
      simp [Nat.add_assoc]
    obtain ⟨i1, i2⟩ := ih (pre ++ a.data ++ [NUL]) hrest
    rw [e, l] at i1 i2
    constructor
    · simp only [offsets, List.map_cons, h1c, i1]
    · intro p hp
      simp only [offsets, List.mem_cons] at hp
      rcases hp with rfl | hp
      · exact ⟨a.data.length, h1, by simp only [packed, List.length_append, List.length_cons]; omega⟩
      · obtain ⟨n, hn, hb⟩ := i2 p hp
        exact ⟨n, hn, by simp only [packed, List.length_append, List.length_cons]; omega⟩

theorem offsets_length (p : Nat) (args : List String) : (offsets p args).length = args.length := by
  induction args generalizing p with
  | nil => rfl
  | cons a rest ih => simp [offsets, ih]

theorem cstr_CString (s : String) :
    cstr (CString s) 0 = some (s.data.takeWhile fun c => c ≠ NUL) := by
  have key : ∀ l : List Char, strlen (l ++ [NUL]) = some (l.takeWhile fun c => c ≠ NUL).length
      ∧ (l ++ [NUL]).take (l.takeWhile fun c => c ≠ NUL).length = l.takeWhile fun c => c ≠ NUL := by
    intro l
    induction l with
    | nil => simp [strlen]
    | cons c cs ih =>
      by_cases hc : c = NUL
      · simp [strlen, hc]
      · have ih2 := ih
        simp at ih2
        simp [strlen, hc, ih2.1, ih2.2]
  have k := key s.data
  simp at k
  simp [cstr, strlenAt, CString, k.1, k.2]

theorem derefAll_ptrs (path argstr : List Char) (ptrs : List Nat) (strs : List (List Char))
    (h : ptrs.map (cstr argstr) = strs.map some) :
    derefAll path argstr (ptrs.map (fun p => some (Ptr.argstr p)) ++ [none])
      = some (strs.map some ++ [none]) := by
  induction ptrs generalizing strs with
  | nil =>
    cases strs with
    | nil => simp [derefAll, deref]
    | cons s ss => simp at h
  | cons p ps ih =>
    cases strs with
    | nil => simp at h
    | cons s ss =>
      simp only [List.map_cons, List.cons.injEq] at h
      simp [derefAll, deref, h.1, ih ss h.2]

/-- C10: for every path and every list of arguments none of which contains a
NUL, `execWrapper` called with the number of arguments and their packed form
(joined by NUL, one trailing NUL, as `run` builds it) builds a vector that holds
the path pointer, then one pointer per argument at which exactly that argument
is read, then `NULL`: `argc + 2` entries handed to `execve` in this order; every
`strlen` stays inside the buffer, which ends with its final NUL. -/
theorem execWrapper_rebuilds_argument_list (path : String) (args : List String)
    (hnul : ∀ a ∈ args, NUL ∉ a.data) (execve : Option Errno) :
    ∃ ptrs : List Nat,
      execWrapperArgv args.length (cArgstr args)
          = some (some Ptr.path :: (ptrs.map (fun p => some (Ptr.argstr p)) ++ [none]))
        ∧ ptrs.length = args.length
        ∧ ptrs.map (cstr (cArgstr args)) = args.map (fun a => some a.data)
        ∧ (∀ p ∈ ptrs, ∃ n, strlenAt (cArgstr args) p = some n
            ∧ p + n + 1 < (cArgstr args).length)
        ∧ (cArgstr args).getLast? = some NUL
        ∧ (execWrapper execve (CString path) args.length (cArgstr args)).trace.head?
            = some (Op.execve (path.data.takeWhile fun c => c ≠ NUL)
                (some (path.data.takeWhile fun c => c ≠ NUL)
                  :: (args.map (fun a => some a.data) ++ [none]))) := by
  have hlast : (cArgstr args).getLast? = some NUL := by simp [cArgstr, CString]
  have hbuf : ∀ a rest, cArgstr (a :: rest) = [] ++ packed (a :: rest) ++ [NUL] := by
    intro a rest
    simp only [cArgstr, CString, join_packed, List.nil_append]
  have main : ∃ ptrs : List Nat,
      fillArgv (cArgstr args) args.length 0 = some (ptrs.map (fun p => some (Ptr.argstr p)))
        ∧ ptrs.length = args.length
        ∧ ptrs.map (cstr (cArgstr args)) = args.map (fun a => some a.data)
        ∧ (∀ p ∈ ptrs, ∃ n, strlenAt (cArgstr args) p = some n
            ∧ p + n + 1 < (cArgstr args).length) := by
    cases args with
    | nil => exact ⟨[], by simp [fillArgv]⟩
    | cons a rest =>
      refine ⟨offsets 0 (a :: rest), ?_, offsets_length _ _, ?_, ?_⟩
      · rw [hbuf]; exact fillArgv_packed (a :: rest) [] [NUL] hnul
      · rw [hbuf]; exact (offsets_packed (a :: rest) [] [NUL] hnul).1
      · intro p hp
        rw [hbuf]
        obtain ⟨n, hn, hb⟩ := (offsets_packed (a :: rest) [] [NUL] hnul).2 p hp
        exact ⟨n, hn, by simp at hb ⊢; omega⟩
  obtain ⟨ptrs, h1, h2, h3, h4⟩ := main
  refine ⟨ptrs, by simp [execWrapperArgv, h1], h2, h3, h4, hlast, ?_⟩
  have hd := derefAll_ptrs (CString path) (cArgstr args) ptrs (args.map fun a => a.data)
    (by simpa using h3)
  cases execve <;>
    simp [execWrapper, execWrapperArgv, h1, cstr_CString, derefAll, deref, hd]

/-! ## Lemmas on `run` -/

theorem run_accepted (lib : Lib) (env : Env) (args : List String) (f : FlagSet)
    (h : accepted lib args = some f) :
    run lib env args = body lib env args (f.getString "dir") (f.getString "image")
      (f.getString "fstype") (f.getString "entry") (f.getInt "uid") (f.getInt "gid") := by
  cases args with
  | nil => simp [accepted] at h
  | cons name rest =>
    simp only [accepted] at h
    simp only [run]
    cases hp : (runFlags name).Parse lib rest with
    | exit s p => simp [hp] at h
    | ok flags =>
      simp only [hp] at h ⊢
      split at h
      · simp at h
      · rename_i hv
        simp only [Option.some.injEq] at h
        subst h
        simp only [hv, if_false]

/-- A return with all four deferred calls pending makes the four teardown calls
in order; an error already set by the return is kept, and otherwise the error
of the first failing teardown call is returned. The exit code is never changed. -/
theorem leave_deferred (env : Env) (image : String) (loopctlFd devNum loopFd imageFd : Int)
    (t : List Op) (c : Int) (e : Option Error) :
    leave (deferred env image loopctlFd devNum loopFd imageFd) t c e
      = ⟨Outcome.returned c (e <|> teardownErr env image loopctlFd devNum loopFd imageFd),
          t ++ teardownOps loopctlFd loopFd imageFd⟩ := by
  cases e <;> cases h1 : env.clrFd <;> cases h2 : env.close imageFd <;>
    cases h3 : env.close loopFd <;> cases h4 : env.close loopctlFd <;>
    simp [leave, deferred, clearFn, closeFn, teardownErr, teardownOps, h1, h2, h3, h4]

/-- The calls of a setup that succeeds up to and including `mount`. -/
theorem body_attached (lib : Lib) (env : Env) (osArgs : List String)
    (dir image fstype entry : String) (uid gid : Int)
    (loopctlFd devNum loopFd imageFd : Int)
    (h : Attached env loopctlFd devNum loopFd imageFd) :
    body lib env osArgs dir image fstype entry uid gid =
      match env.mount with
      | some e =>
        leave (deferred env image loopctlFd devNum loopFd imageFd)
          (attachTrace image loopctlFd devNum loopFd imageFd
            ++ [Op.mount (loopDevName devNum) dir fstype 0 ""])
          1 (some (Error.wrap (Error.errno e) "mount" []))
      | none =>
        if env.fork.r1 = 0 then
          ⟨(child lib env osArgs dir entry uid gid).outcome,
            attachTrace image loopctlFd devNum loopFd imageFd
              ++ [Op.mount (loopDevName devNum) dir fstype 0 "", Op.fork]
              ++ (child lib env osArgs dir entry uid gid).trace⟩
        else
          waitLoop (deferred env image loopctlFd devNum loopFd imageFd) env.fork.r1 env.waits
            (attachTrace image loopctlFd devNum loopFd imageFd
              ++ [Op.mount (loopDevName devNum) dir fstype 0 "", Op.fork]) := by
  obtain ⟨h1, h2, h3, h4, h5, h6⟩ := h
  unfold body
  simp only [h1, h2, h3, h4, h5, h6, Nat.not_lt_zero, if_false]
  cases env.mount <;> simp [attachTrace, deferred, loopDevName]

theorem and_mask (s : Nat) : s &&& 0x7F = s % 128 := by
  simpa using Nat.and_pow_two_sub_one_eq_mod s 7

theorem and_byte (s : Nat) : s &&& 0xFF = s % 256 := by
  simpa using Nat.and_pow_two_sub_one_eq_mod s 8

theorem not_terminal (s : Nat)
    (h : WaitStatus.Stopped s = true ∨ WaitStatus.Continued s = true) :
    WaitStatus.Signaled s = false ∧ WaitStatus.Exited s = false := by
  simp only [WaitStatus.Stopped, WaitStatus.Continued, WaitStatus.Signaled, WaitStatus.Exited,
    WaitStatus.stopped, WaitStatus.mask, WaitStatus.exited, and_mask, and_byte] at h ⊢
  simp only [beq_iff_eq, bne_iff_ne, Bool.and_eq_false_imp, Bool.and_eq_true,
    beq_eq_false_iff_ne, ne_eq, Bool.not_eq_true, Bool.and_eq_false_iff] at h ⊢
  rcases h with h | h
  · have h256 : (s : Nat) % 256 = 127 := h
    have : s % 128 = 127 := by omega
    simp [this]
  · subst h
    simp

theorem waitLoop_skip (defers : List (Frame → Frame)) (pid : Nat) (pre : List WaitStatus)
    (rest : List (Except Errno WaitStatus)) (t : List Op)
    (hpre : ∀ s ∈ pre, WaitStatus.Stopped s = true ∨ WaitStatus.Continued s = true) :
    waitLoop defers pid (pre.map Except.ok ++ rest) t
      = waitLoop defers pid rest (t ++ List.replicate pre.length (Op.wait4 (toInt pid))) := by
  induction pre generalizing t with
  | nil => simp
  | cons s pre ih =>
    have hs := hpre s (by simp)
    have hn := not_terminal s hs
    have hsc : (WaitStatus.Stopped s || WaitStatus.Continued s) = true := by
      rcases hs with h | h <;> simp [h]
    have ih2 := ih (t ++ [Op.wait4 (toInt pid)]) (fun x hx => hpre x (by simp [hx]))
    simp only [List.map_cons, List.cons_append, waitLoop, hn.1, hn.2, hsc, if_true,
      Bool.false_eq_true, if_false, List.append_eq]
    rw [ih2]
    simp [List.replicate_succ, List.append_assoc]

theorem run_parent (lib : Lib) (env : Env) (args : List String) (f : FlagSet)
    (loopctlFd devNum loopFd imageFd : Int)
    (hacc : accepted lib args = some f)
    (hatt : Attached env loopctlFd devNum loopFd imageFd)
    (hmount : env.mount = none) (hpid : env.fork.r1 ≠ 0) :
    run lib env args
      = waitLoop (deferred env (f.getString "image") loopctlFd devNum loopFd imageFd)
          env.fork.r1 env.waits
          (attachTrace (f.getString "image") loopctlFd devNum loopFd imageFd
            ++ [Op.mount (loopDevName devNum) (f.getString "dir") (f.getString "fstype") 0 "",
                Op.fork]) := by
  rw [run_accepted lib env args f hacc,
    body_attached lib env args _ _ _ _ _ _ loopctlFd devNum loopFd imageFd hatt]
  simp only [hmount, hpid, if_false]

theorem main_returned (lib : Lib) (env : Env) (args : List String) (c : Int)
    (e : Option Error) (h : (run lib env args).outcome = Outcome.returned c e) :
    (main lib env args).outcome = Outcome.exited c := by
  unfold main
  simp only [h]
  cases e <;> rfl

theorem exited_not_signaled (w : Nat) (h : WaitStatus.Exited w = true) :
    WaitStatus.Signaled w = false := by
  simp only [WaitStatus.Exited, WaitStatus.Signaled, beq_iff_eq] at h ⊢
  simp [h]

/-- C1: in the parent, after a setup that succeeds, for every sequence of
`wait4` results made of Stopped or Continued statuses followed by a status
`Exited(code)`, `run` calls `wait4` once per status up to and including the
Exited one and returns the exit code `code`, whatever the teardown steps answer
(they decide only the error returned with it); `main` exits with `code`. -/
theorem exit_status_propagation (lib : Lib) (env : Env) (args : List String) (f : FlagSet)
    (loopctlFd devNum loopFd imageFd : Int)
    (pre : List WaitStatus) (w : WaitStatus) (rest : List (Except Errno WaitStatus))
    (hacc : accepted lib args = some f)
    (hatt : Attached env loopctlFd devNum loopFd imageFd)
    (hmount : env.mount = none) (hpid : env.fork.r1 ≠ 0)
    (hwaits : env.waits = pre.map Except.ok ++ Except.ok w :: rest)
    (hpre : ∀ s ∈ pre, WaitStatus.Stopped s = true ∨ WaitStatus.Continued s = true)
    (hw : WaitStatus.Exited w = true) :
    run lib env args
        = ⟨Outcome.returned (WaitStatus.ExitStatus w)
            (teardownErr env (f.getString "image") loopctlFd devNum loopFd imageFd),
           attachTrace (f.getString "image") loopctlFd devNum loopFd imageFd
            ++ [Op.mount (loopDevName devNum) (f.getString "dir") (f.getString "fstype") 0 "",
                Op.fork]
            ++ List.replicate (pre.length + 1) (Op.wait4 (toInt env.fork.r1))
            ++ teardownOps loopctlFd loopFd imageFd⟩
      ∧ (main lib env args).outcome = Outcome.exited (WaitStatus.ExitStatus w) := by
  have hrun : run lib env args
        = ⟨Outcome.returned (WaitStatus.ExitStatus w)
            (teardownErr env (f.getString "image") loopctlFd devNum loopFd imageFd),
           attachTrace (f.getString "image") loopctlFd devNum loopFd imageFd
            ++ [Op.mount (loopDevName devNum) (f.getString "dir") (f.getString "fstype") 0 "",
                Op.fork]
            ++ List.replicate (pre.length + 1) (Op.wait4 (toInt env.fork.r1))
            ++ teardownOps loopctlFd loopFd imageFd⟩ := by
    rw [run_parent lib env args f loopctlFd devNum loopFd imageFd hacc hatt hmount hpid,
      hwaits, waitLoop_skip _ _ pre _ _ hpre]
    simp only [waitLoop, exited_not_signaled w hw, hw, if_true, Bool.false_eq_true, if_false,
      leave_deferred]
    simp [List.replicate_succ', List.append_assoc]
  exact ⟨hrun, main_returned lib env args _ _ (by rw [hrun])⟩

/-- C1, on a concrete run: the child is stopped, continued, then exits with
status 3. -/
theorem exit_status_propagation_witness :
    run decLib env0 cmd0
        = ⟨Outcome.returned 3 none,
           attachTrace "img" 3 0 4 5
            ++ [Op.mount "/dev/loop0" "/mnt" "ext4" 0 "", Op.fork]
            ++ List.replicate 3 (Op.wait4 1234)
            ++ teardownOps 3 4 5⟩
      ∧ (main decLib env0 cmd0).outcome = Outcome.exited 3 :=
  exit_status_propagation decLib env0 cmd0 flags0
    3 0 4 5 [0x137F, 0xFFFF] 0x300 []
    (by decide) ⟨rfl, rfl, rfl, rfl, rfl, rfl⟩ rfl (by decide) rfl (by decide) (by decide)

/-- C5: in the parent, after a setup that succeeds, for every sequence of
`wait4` results made of Stopped or Continued statuses followed by a status
`Signaled(sig)`, `run` returns exit code 1 with the error
`process terminated by signal sig`, which no teardown step replaces; `main`
prints it and exits with 1. -/
theorem signal_classification (lib : Lib) (env : Env) (args : List String) (f : FlagSet)
    (loopctlFd devNum loopFd imageFd : Int)
    (pre : List WaitStatus) (w : WaitStatus) (rest : List (Except Errno WaitStatus))
    (hacc : accepted lib args = some f)
    (hatt : Attached env loopctlFd devNum loopFd imageFd)
    (hmount : env.mount = none) (hpid : env.fork.r1 ≠ 0)
    (hwaits : env.waits = pre.map Except.ok ++ Except.ok w :: rest)
    (hpre : ∀ s ∈ pre, WaitStatus.Stopped s = true ∨ WaitStatus.Continued s = true)
    (hw : WaitStatus.Signaled w = true) :
    (run lib env args).outcome
        = Outcome.returned 1 (some (Error.new "process terminated by signal %v"
            [Arg.signal (WaitStatus.Signal w)]))
      ∧ WaitStatus.Signal w = ((w &&& 0x7F : Nat) : Int)
      ∧ (main lib env args).outcome = Outcome.exited 1
      ∧ (main lib env args).trace.getLast?
          = some (Op.logPrint (Msg.err (Error.new "process terminated by signal %v"
              [Arg.signal (WaitStatus.Signal w)]))) := by
  have hrun : (run lib env args).outcome
        = Outcome.returned 1 (some (Error.new "process terminated by signal %v"
            [Arg.signal (WaitStatus.Signal w)])) := by
    rw [run_parent lib env args f loopctlFd devNum loopFd imageFd hacc hatt hmount hpid,
      hwaits, waitLoop_skip _ _ pre _ _ hpre]
    simp only [waitLoop, hw, if_true, leave_deferred]
    rfl
  refine ⟨hrun, ?_, main_returned lib env args _ _ hrun, ?_⟩
  · simp [WaitStatus.Signal, hw, WaitStatus.mask]
  · unfold main
    simp only [hrun]
    simp

/-- C5, on a concrete run: the child is stopped, then killed by signal 9. -/
theorem signal_classification_witness :
    (run decLib envKilled cmd0).outcome
        = Outcome.returned 1 (some (Error.new "process terminated by signal %v"
            [Arg.signal (WaitStatus.Signal 9)]))
      ∧ WaitStatus.Signal 9 = ((9 &&& 0x7F : Nat) : Int)
      ∧ (main decLib envKilled cmd0).outcome
          = Outcome.exited 1
      ∧ (main decLib envKilled cmd0).trace.getLast?
          = some (Op.logPrint (Msg.err (Error.new "process terminated by signal %v"
              [Arg.signal (WaitStatus.Signal 9)]))) :=
  signal_classification decLib envKilled cmd0 flags0
    3 0 4 5 [0x137F] 9 []
    (by decide) ⟨rfl, rfl, rfl, rfl, rfl, rfl⟩ rfl (by decide) rfl (by decide) (by decide)

theorem flagArgs_nil (osArgs : List String) : flagArgs osArgs = [] := rfl

/-- In the child the package-level flag set is empty, so `execWrapper` is called
with `argc = 0` and hands `execve` the entry path and `NULL`, whatever the
command line of `run` carried after its flags. -/
theorem execWrapper_child (execve : Option Errno) (entry : String) (osArgs : List String) :
    execWrapper execve (CString entry) (flagArgs osArgs).length (cArgstr (flagArgs osArgs))
      = match execve with
        | none =>
          ⟨Outcome.execed,
            [Op.execve (entry.data.takeWhile fun c => c ≠ NUL)
              [some (entry.data.takeWhile fun c => c ≠ NUL), none]]⟩
        | some _ =>
          ⟨Outcome.exited 1,
            [Op.execve (entry.data.takeWhile fun c => c ≠ NUL)
              [some (entry.data.takeWhile fun c => c ≠ NUL), none], Op.perror "execv"]⟩ := by
  cases execve <;>
    simp [flagArgs_nil, execWrapper, execWrapperArgv, fillArgv, derefAll, deref, cstr_CString]

/-- The calls of the child up to and including `setuid`. -/
theorem child_eq (lib : Lib) (env : Env) (osArgs : List String) (dir entry : String)
    (uid gid : Int) :
    child lib env osArgs dir entry uid gid =
      match env.pivotRoot with
      | some e =>
        ⟨Outcome.exited 1, (rootOps lib dir uid gid).take 2
          ++ [Op.logFatal (Msg.err (Error.wrap (Error.errno e) "pivot_root" []))]⟩
      | none =>
        match env.chdir with
        | some e =>
          ⟨Outcome.exited 1, (rootOps lib dir uid gid).take 3
            ++ [Op.logFatal (Msg.err (Error.wrap (Error.pathError "chdir" "/" e) "chdir" []))]⟩
        | none =>
          match env.unmount with
          | some e =>
            ⟨Outcome.exited 1, (rootOps lib dir uid gid).take 4
              ++ [Op.logFatal (Msg.err (Error.wrap (Error.errno e) "unmount" []))]⟩
          | none =>
            match env.remove with
            | some e =>
              ⟨Outcome.exited 1, (rootOps lib dir uid gid).take 5
                ++ [Op.logFatal (Msg.err (Error.wrap (Error.pathError "remove" "/.old_root" e) "remove" []))]⟩
            | none =>
              ⟨(execWrapper env.execve (CString entry) (flagArgs osArgs).length
                  (cArgstr (flagArgs osArgs))).outcome,
                rootOps lib dir uid gid
                  ++ (execWrapper env.execve (CString entry) (flagArgs osArgs).length
                    (cArgstr (flagArgs osArgs))).trace⟩ := by
  unfold child
  cases env.pivotRoot <;> cases env.chdir <;> cases env.unmount <;> cases env.remove <;>
    simp [logFatal, rootOps]

theorem child_not_returned (lib : Lib) (env : Env) (osArgs : List String) (dir entry : String)
    (uid gid : Int) (c : Int) (e : Option Error) :
    (child lib env osArgs dir entry uid gid).outcome ≠ Outcome.returned c e := by
  rw [child_eq, execWrapper_child]
  cases env.pivotRoot <;> cases env.chdir <;> cases env.unmount <;> cases env.remove <;>
    cases env.execve <;> simp

theorem child_trace_of_execve (lib : Lib) (env : Env) (osArgs : List String)
    (dir entry : String) (uid gid : Int) (p : List Char) (a : List (Option (List Char)))
    (h : Op.execve p a ∈ (child lib env osArgs dir entry uid gid).trace) :
    p = entry.data.takeWhile (fun c => c ≠ NUL) ∧ a = [some p, none]
      ∧ ∃ tail,
        (child lib env osArgs dir entry uid gid).trace
            = rootOps lib dir uid gid ++ [Op.execve p a] ++ tail
          ∧ (tail = [] ∨ tail = [Op.perror "execv"]) := by
  rw [child_eq, execWrapper_child] at h ⊢
  cases h1 : env.pivotRoot <;> cases h2 : env.chdir <;> cases h3 : env.unmount <;>
    cases h4 : env.remove <;> cases h5 : env.execve <;>
    simp [h1, h2, h3, h4, h5, rootOps] at h ⊢ <;>
    simp [h.1, h.2]

theorem accepted_ids (lib : Lib) (args : List String) (f : FlagSet)
    (h : accepted lib args = some f) : 0 ≤ f.getInt "uid" ∧ 0 ≤ f.getInt "gid" := by
  cases args with
  | nil => simp [accepted] at h
  | cons name rest =>
    simp only [accepted] at h
    cases hp : (runFlags name).Parse lib rest with
    | exit st pr => simp [hp] at h
    | ok flags =>
      simp only [hp] at h
      split at h
      · simp at h
      · rename_i hv
        simp only [Option.some.injEq] at h
        subst h
        simp only [not_or, not_lt] at hv
        exact ⟨hv.2.2.2.2.1, hv.2.2.2.2.2⟩

theorem toUintptr_id (i : Int) (h0 : 0 ≤ i) (h1 : i < 2 ^ 63) : toUintptr i = i.toNat := by
  unfold toUintptr
  have : i % 2 ^ 64 = i := Int.emod_eq_of_lt h0 (by omega)
  rw [this]

/-- C9: in every execution of `run` that takes the child branch (`fork` returns
0 after a setup that succeeds) and reaches `execve`, the calls after `fork` are,
once each and in this order: `mkdir` of the staging directory
`filepath.Join(dir, ".old_root")`, `pivot_root(dir, staging)`, `chdir("/")`, the
detached unmount of `/.old_root`, its removal, `setgid(gid)`, `setuid(uid)` with
the ids of the command line (Go `int`s, below `2 ^ 63`), and `execve` whose path
is the C string of `entry` (the entry itself when it holds no NUL); nothing
follows but the `perror` of a failed `execve`. -/
theorem child_root_transition_order (lib : Lib) (env : Env) (args : List String)
    (f : FlagSet) (loopctlFd devNum loopFd imageFd : Int)
    (p : List Char) (a : List (Option (List Char)))
    (hacc : accepted lib args = some f)
    (hatt : Attached env loopctlFd devNum loopFd imageFd)
    (hmount : env.mount = none) (hpid : env.fork.r1 = 0)
    (huid : f.getInt "uid" < 2 ^ 63) (hgid : f.getInt "gid" < 2 ^ 63)
    (h : Op.execve p a ∈ (run lib env args).trace) :
    p = (f.getString "entry").data.takeWhile (fun c => c ≠ NUL)
      ∧ (NUL ∉ (f.getString "entry").data → p = (f.getString "entry").data)
      ∧ a = [some p, none]
      ∧ ∃ tail,
        (run lib env args).trace
            = attachTrace (f.getString "image") loopctlFd devNum loopFd imageFd
              ++ [Op.mount (loopDevName devNum) (f.getString "dir") (f.getString "fstype") 0 "",
                  Op.fork]
              ++ [Op.mkdir (lib.join (f.getString "dir") ".old_root") 0o700,
                  Op.pivotRoot (f.getString "dir") (lib.join (f.getString "dir") ".old_root"),
                  Op.chdir "/",
                  Op.unmount "/.old_root" MNT_DETACH,
                  Op.remove "/.old_root",
                  Op.setgid (f.getInt "gid").toNat,
                  Op.setuid (f.getInt "uid").toNat,
                  Op.execve p a]
              ++ tail
          ∧ (tail = [] ∨ tail = [Op.perror "execv"]) := by
  have hrun : (run lib env args).trace
      = attachTrace (f.getString "image") loopctlFd devNum loopFd imageFd
          ++ [Op.mount (loopDevName devNum) (f.getString "dir") (f.getString "fstype") 0 "",
              Op.fork]
          ++ (child lib env args (f.getString "dir") (f.getString "entry")
                (f.getInt "uid") (f.getInt "gid")).trace := by
    rw [run_accepted lib env args f hacc,
      body_attached lib env args _ _ _ _ _ _ loopctlFd devNum loopFd imageFd hatt]
    simp only [hmount, hpid, if_true]
  have hids := accepted_ids lib args f hacc
  have hu := toUintptr_id _ hids.1 huid
  have hg := toUintptr_id _ hids.2 hgid
  have hchild : Op.execve p a ∈ (child lib env args (f.getString "dir") (f.getString "entry")
      (f.getInt "uid") (f.getInt "gid")).trace := by
    rw [hrun] at h
    simp only [List.mem_append, List.mem_cons, List.mem_singleton, List.not_mem_nil,
      or_false, attachTrace] at h
    rcases h with (h | h) | h
    · simp at h
    · simp at h
    · exact h
  obtain ⟨hp, ha, tail, ht, htail⟩ :=
    child_trace_of_execve lib env args _ _ _ _ p a hchild
  refine ⟨hp, ?_, ha, tail, ?_, htail⟩
  · intro hnul
    rw [hp]
    apply List.takeWhile_eq_self_iff.mpr
    intro c hc
    simp only [ne_eq, decide_eq_true_eq]
    intro hcn
    exact hnul (hcn ▸ hc)
  · rw [hrun, ht]
    simp only [rootOps, hu, hg, List.append_assoc, List.cons_append, List.nil_append]

theorem closeFn_keeps (env : Env) (name : String) (fd : Int) : Keeps (closeFn env name fd) := by
  intro f
  unfold closeFn
  cases env.close fd <;> cases h : f.err <;> simp [h]

theorem clearFn_keeps (env : Env) (fd : Int) : Keeps (clearFn env fd) := by
  intro f
  unfold clearFn
  cases env.clrFd <;> cases h : f.err <;> simp [h]

theorem leave_pending (defers : List (Frame → Frame)) (h : ∀ d ∈ defers, Keeps d)
    (t : List Op) (c : Int) (e : Error) :
    (leave defers t c (some e)).outcome = Outcome.returned c (some e) := by
  have key : ∀ (ds : List (Frame → Frame)) (f : Frame), (∀ d ∈ ds, Keeps d) →
      f.exitCode = c → f.err = some e →
      (ds.foldl (fun f d => d f) f).exitCode = c ∧ (ds.foldl (fun f d => d f) f).err = some e := by
    intro ds
    induction ds with
    | nil => intro f _ h1 h2; exact ⟨h1, h2⟩
    | cons d ds ih =>
      intro f hk h1 h2
      have hd := hk d (by simp) f
      exact ih (d f) (fun x hx => hk x (by simp [hx])) (hd.1.trans h1) (hd.2 e h2)
  have := key defers ⟨t, c, some e⟩ h rfl rfl
  simp [leave, this.1, this.2]

theorem waitLoop_cases (defers : List (Frame → Frame)) (pid : Nat)
    (waits : List (Except Errno WaitStatus)) (t : List Op) :
    (∃ n, waitLoop defers pid waits t
        = ⟨Outcome.blocked, t ++ List.replicate n (Op.wait4 (toInt pid))⟩)
      ∨ ∃ n c e, waitLoop defers pid waits t
          = leave defers (t ++ List.replicate n (Op.wait4 (toInt pid))) c e
        ∧ ((c = 1 ∧ e ≠ none)
          ∨ ∃ w, Except.ok w ∈ waits ∧ WaitStatus.Exited w = true
              ∧ c = WaitStatus.ExitStatus w ∧ e = none) := by
  induction waits generalizing t with
  | nil => exact Or.inl ⟨1, by simp [waitLoop]⟩
  | cons r rest ih =>
    cases r with
    | error errno =>
      exact Or.inr ⟨1, 1, some (Error.wrap (Error.errno errno) "wait4" []),
        by simp [waitLoop], Or.inl ⟨rfl, by simp⟩⟩
    | ok w =>
      by_cases hs : WaitStatus.Signaled w = true
      · exact Or.inr ⟨1, 1, some (Error.new "process terminated by signal %v"
          [Arg.signal (WaitStatus.Signal w)]), by simp [waitLoop, hs], Or.inl ⟨rfl, by simp⟩⟩
      · by_cases he : WaitStatus.Exited w = true
        · exact Or.inr ⟨1, WaitStatus.ExitStatus w, none, by simp [waitLoop, hs, he],
            Or.inr ⟨w, by simp, he, rfl, rfl⟩⟩
        · by_cases hc : (WaitStatus.Stopped w || WaitStatus.Continued w) = true
          · rcases ih (t ++ [Op.wait4 (toInt pid)]) with ⟨n, hn⟩ | ⟨n, c, e, hn, hce⟩
            · refine Or.inl ⟨n + 1, ?_⟩
              simp only [waitLoop, hs, he, hc, if_true, if_false, hn]
              simp [List.replicate_succ, List.append_assoc]
            · refine Or.inr ⟨n + 1, c, e, ?_, ?_⟩
              · simp only [waitLoop, hs, he, hc, if_true, if_false, hn]
                simp [List.replicate_succ, List.append_assoc]
              · rcases hce with h | ⟨w2, h1, h2, h3, h4⟩
                · exact Or.inl h
                · exact Or.inr ⟨w2, by simp [h1], h2, h3, h4⟩
          · exact Or.inr ⟨1, 1, some (Error.new "unknown return from wait: %x" [Arg.status w]),
              by simp [waitLoop, hs, he, hc], Or.inl ⟨rfl, by simp⟩⟩

theorem run_returned_accepted (lib : Lib) (env : Env) (args : List String) (c : Int)
    (e : Option Error) (h : (run lib env args).outcome = Outcome.returned c e) :
    ∃ f, accepted lib args = some f := by
  cases args with
  | nil => simp [run] at h
  | cons name rest =>
    simp only [run] at h
    simp only [accepted]
    cases hp : (runFlags name).Parse lib rest with
    | exit s p => simp [hp] at h
    | ok flags =>
      simp only [hp] at h ⊢
      split
      · rename_i hv
        simp [hv] at h
      · exact ⟨flags, rfl⟩

theorem attachTrace_not_teardown (image : String) (loopctlFd devNum loopFd imageFd : Int) :
    ∀ op ∈ attachTrace image loopctlFd devNum loopFd imageFd, Op.isTeardown op = false := by
  intro op hop
  simp only [attachTrace, List.mem_cons, List.mem_singleton, List.not_mem_nil, or_false] at hop
  rcases hop with h | h | h | h | h | h <;> subst h <;> rfl

/-- C6: once `LOOP_SET_FD` has succeeded, every path on which `run` returns
ends with exactly these teardown calls, in this order and whatever each of them
answers: `LOOP_CLR_FD` on the loop device, close of the image descriptor, close
of the loop-device descriptor, close of the loop-control descriptor; no
teardown call happens before them. In particular a failing `mount` makes `run`
return after exactly this teardown. -/
theorem teardown_reverse_order (lib : Lib) (env : Env) (args : List String) (f : FlagSet)
    (loopctlFd devNum loopFd imageFd : Int)
    (hacc : accepted lib args = some f)
    (hatt : Attached env loopctlFd devNum loopFd imageFd) :
    (∀ c e, (run lib env args).outcome = Outcome.returned c e →
      ∃ t, (run lib env args).trace
            = t ++ [Op.ioctlGetInt loopFd LOOP_CLR_FD, Op.close imageFd, Op.close loopFd,
                Op.close loopctlFd]
          ∧ ∀ op ∈ t, Op.isTeardown op = false)
      ∧ ∀ errno, env.mount = some errno →
          run lib env args
            = ⟨Outcome.returned 1 (some (Error.wrap (Error.errno errno) "mount" [])),
               attachTrace (f.getString "image") loopctlFd devNum loopFd imageFd
                ++ [Op.mount (loopDevName devNum) (f.getString "dir") (f.getString "fstype") 0 ""]
                ++ [Op.ioctlGetInt loopFd LOOP_CLR_FD, Op.close imageFd, Op.close loopFd,
                    Op.close loopctlFd]⟩ := by
  have hrun := run_accepted lib env args f hacc
  rw [body_attached lib env args _ _ _ _ _ _ loopctlFd devNum loopFd imageFd hatt] at hrun
  have hat := attachTrace_not_teardown (f.getString "image") loopctlFd devNum loopFd imageFd
  constructor
  · intro c e hret
    rw [hrun] at hret ⊢
    cases hm : env.mount with
    | some errno =>
      simp only [hm, leave_deferred]
      refine ⟨_, rfl, ?_⟩
      intro op hop
      simp only [List.mem_append, List.mem_singleton] at hop
      rcases hop with h | h
      · exact hat op h
      · subst h; rfl
    | none =>
      simp only [hm] at hret ⊢
      by_cases hp : env.fork.r1 = 0
      · simp only [hp, if_true] at hret
        exact absurd hret (child_not_returned _ _ _ _ _ _ _ _ _)
      · simp only [hp, if_false] at hret ⊢
        rcases waitLoop_cases (deferred env (f.getString "image") loopctlFd devNum loopFd imageFd)
            env.fork.r1 env.waits
            (attachTrace (f.getString "image") loopctlFd devNum loopFd imageFd
              ++ [Op.mount (loopDevName devNum) (f.getString "dir") (f.getString "fstype") 0 "",
                  Op.fork]) with ⟨n, hn⟩ | ⟨n, c2, e2, hn, _⟩
        · rw [hn] at hret
          simp at hret
        · rw [hn, leave_deferred]
          refine ⟨_, rfl, ?_⟩
          intro op hop
          simp only [List.mem_append, List.mem_cons, List.mem_singleton, List.not_mem_nil,
            or_false] at hop
          rcases hop with (h | h | h) | h
          · exact hat op h
          · subst h; rfl
          · subst h; rfl
          · rw [List.eq_of_mem_replicate h]; rfl
  · intro errno hm
    rw [hrun]
    simp only [hm, leave_deferred]
    rfl

/-- C6, on a concrete run in which `mount` fails. -/
theorem teardown_reverse_order_witness :
    run decLib envMountFails cmd0
      = ⟨Outcome.returned 1 (some (Error.wrap (Error.errno 22) "mount" [])),
         attachTrace "img" 3 0 4 5 ++ [Op.mount "/dev/loop0" "/mnt" "ext4" 0 ""]
          ++ [Op.ioctlGetInt 4 LOOP_CLR_FD, Op.close 5, Op.close 4, Op.close 3]⟩ :=
  (teardown_reverse_order decLib envMountFails cmd0 flags0 3 0 4 5 (by decide)
    ⟨rfl, rfl, rfl, rfl, rfl, rfl⟩).2 22 rfl

theorem attached_or_setupFails (env : Env) :
    (∃ loopctlFd devNum loopFd imageFd, Attached env loopctlFd devNum loopFd imageFd)
      ∨ setupFails env := by
  unfold setupFails
  cases h1 : env.unshare with
  | some e => simp
  | none =>
    cases h2 : env.openLoopctl with
    | error e => simp
    | ok a =>
      cases h3 : env.getFree with
      | error e => simp
      | ok b =>
        cases h4 : env.openLoop with
        | error e => simp
        | ok c =>
          cases h5 : env.openImage with
          | error e => simp
          | ok d =>
            cases h6 : env.setFd with
            | some e => simp
            | none => exact Or.inl ⟨a, b, c, d, ⟨h1, h2, h3, h4, h5, h6⟩⟩

theorem body_setup_fails (lib : Lib) (env : Env) (osArgs : List String)
    (dir image fstype entry : String) (uid gid : Int) (h : setupFails env) :
    ∃ e, (body lib env osArgs dir image fstype entry uid gid).outcome
      = Outcome.returned 1 (some e) := by
  unfold body
  cases h1 : env.unshare with
  | some e => exact ⟨_, leave_pending _ (by simp) _ _ _⟩
  | none =>
    cases h2 : env.openLoopctl with
    | error e => exact ⟨_, leave_pending _ (by simp) _ _ _⟩
    | ok a =>
      cases h3 : env.getFree with
      | error e => exact ⟨_, leave_pending _ (by simp [closeFn_keeps]) _ _ _⟩
      | ok b =>
        cases h4 : env.openLoop with
        | error e => exact ⟨_, leave_pending _ (by simp [closeFn_keeps]) _ _ _⟩
        | ok c =>
          cases h5 : env.openImage with
          | error e => exact ⟨_, leave_pending _ (by simp [closeFn_keeps]) _ _ _⟩
          | ok d =>
            cases h6 : env.setFd with
            | some e => exact ⟨_, leave_pending _ (by simp [closeFn_keeps]) _ _ _⟩
            | none =>
              cases h7 : env.mount with
              | some e =>
                exact ⟨_, leave_pending _ (by simp [closeFn_keeps, clearFn_keeps]) _ _ _⟩
              | none => simp [setupFails, h1, h2, h3, h4, h5, h6, h7] at h

theorem deferred_keeps (env : Env) (image : String) (loopctlFd devNum loopFd imageFd : Int) :
    ∀ d ∈ deferred env image loopctlFd devNum loopFd imageFd, Keeps d := by
  simp [deferred, closeFn_keeps, clearFn_keeps]

/-- C8, amended: when a setup step before `fork` fails, `run` returns exit code
1 with an error and `main` exits with 1; and whenever `run` returns an error,
its exit code is 1, unless the child exited normally, in which case the exit
code is the exit status of the child and the error is that of the first failing
teardown step. -/
theorem exit_code_on_failure (lib : Lib) (env : Env) (args : List String) :
    (∀ f, accepted lib args = some f → setupFails env →
        ∃ e, (run lib env args).outcome = Outcome.returned 1 (some e)
          ∧ (main lib env args).outcome = Outcome.exited 1)
      ∧ ∀ c e, (run lib env args).outcome = Outcome.returned c (some e) →
          c = 1 ∨ ∃ w f loopctlFd devNum loopFd imageFd,
            Except.ok w ∈ env.waits ∧ WaitStatus.Exited w = true
              ∧ c = WaitStatus.ExitStatus w
              ∧ accepted lib args = some f
              ∧ Attached env loopctlFd devNum loopFd imageFd
              ∧ teardownErr env (f.getString "image") loopctlFd devNum loopFd imageFd
                  = some e := by
  constructor
  · intro f hacc hfail
    obtain ⟨e, he⟩ := body_setup_fails lib env args (f.getString "dir") (f.getString "image")
      (f.getString "fstype") (f.getString "entry") (f.getInt "uid") (f.getInt "gid") hfail
    rw [← run_accepted lib env args f hacc] at he
    exact ⟨e, he, main_returned lib env args 1 (some e) he⟩
  · intro c e hret
    obtain ⟨f, hacc⟩ := run_returned_accepted lib env args c (some e) hret
    have hrun := run_accepted lib env args f hacc
    have fails : setupFails env → c = 1 := by
      intro hfail
      obtain ⟨e2, he2⟩ := body_setup_fails lib env args (f.getString "dir")
        (f.getString "image") (f.getString "fstype") (f.getString "entry")
        (f.getInt "uid") (f.getInt "gid") hfail
      rw [← hrun, hret] at he2
      simp only [Outcome.returned.injEq] at he2
      exact he2.1
    rcases attached_or_setupFails env with ⟨a, b, c2, d, hatt⟩ | hfail
    · cases hm : env.mount with
      | some errno => exact Or.inl (fails (by simp [setupFails, hm]))
      | none =>
        rw [hrun, body_attached lib env args _ _ _ _ _ _ a b c2 d hatt] at hret
        simp only [hm] at hret
        by_cases hp : env.fork.r1 = 0
        · simp only [hp, if_true] at hret
          exact absurd hret (child_not_returned _ _ _ _ _ _ _ _ _)
        · simp only [hp, if_false] at hret
          rcases waitLoop_cases (deferred env (f.getString "image") a b c2 d)
              env.fork.r1 env.waits
              (attachTrace (f.getString "image") a b c2 d
                ++ [Op.mount (loopDevName b) (f.getString "dir") (f.getString "fstype") 0 "",
                    Op.fork]) with ⟨n, hn⟩ | ⟨n, c3, e3, hn, hce⟩
          · rw [hn] at hret
            simp at hret
          · rw [hn] at hret
            rcases hce with ⟨h1, h2⟩ | ⟨w, hw1, hw2, hw3, hw4⟩
            · obtain ⟨e4, he4⟩ := Option.ne_none_iff_exists'.mp h2
              subst he4
              rw [leave_pending _ (deferred_keeps _ _ _ _ _ _)] at hret
              simp only [Outcome.returned.injEq] at hret
              exact Or.inl (hret.1.symm.trans h1)
            · subst hw4
              rw [leave_deferred] at hret
              simp only [Outcome.returned.injEq, Option.none_orElse, Option.orElse_none] at hret
              refine Or.inr ⟨w, f, a, b, c2, d, hw1, hw2, hret.1.symm.trans hw3, hacc, hatt, ?_⟩
              simpa using hret.2
    · exact Or.inl (fails hfail)

/-- C8, on a concrete run in which `mount` fails. -/
theorem exit_code_on_failure_witness :
    ∃ e, (run decLib envMountFails cmd0).outcome = Outcome.returned 1 (some e)
      ∧ (main decLib envMountFails cmd0).outcome = Outcome.exited 1 :=
  (exit_code_on_failure decLib envMountFails cmd0).1 flags0 (by decide)
    (by simp [setupFails, envMountFails])

/-- C8 fails as stated: every setup step succeeds, the child exits with status
3, `LOOP_CLR_FD` fails during teardown; `run` returns that error together with
exit code 3, and `main` exits with 3, not 1. -/
theorem exit_code_on_failure_counterexample :
    envClrFails.clrFd = some 16
      ∧ (run decLib envClrFails cmd0).outcome = Outcome.returned 3 (some (Error.errno 16))
      ∧ (main decLib envClrFails cmd0).outcome = Outcome.exited 3
      ∧ (3 : Int) ≠ 1 := by
  decide

theorem lookup_store_ne (formal : List (String × Value)) (n name : String) (v : Value)
    (h : n ≠ name) :
    FlagSet.lookup (FlagSet.store formal n v) name = FlagSet.lookup formal name := by
  induction formal with
  | nil => rfl
  | cons p rest ih =>
    obtain ⟨m, w⟩ := p
    by_cases hm : m = n
    · subst hm
      simp [FlagSet.store, FlagSet.lookup, h]
    · by_cases hm2 : m = name
      · subst hm2
        simp [FlagSet.store, FlagSet.lookup, hm]
      · simp [FlagSet.store, FlagSet.lookup, hm, hm2, ih]

theorem parseLoop_absent (lib : Lib) (name : String) :
    ∀ (n : Nat) (rest : List String), rest.length ≤ n → ∀ f g : FlagSet,
      FlagSet.parseLoop lib f rest = Parsed.ok g → absent name rest = true →
      FlagSet.lookup g.formal name = FlagSet.lookup f.formal name := by
  intro n
  induction n with
  | zero =>
    intro rest hlen f g hp _
    cases rest with
    | nil => simp [FlagSet.parseLoop] at hp; subst hp; rfl
    | cons s r => simp at hlen
  | succ n ih =>
    intro rest hlen f g hp habs
    cases rest with
    | nil => simp [FlagSet.parseLoop] at hp; subst hp; rfl
    | cons s r =>
      have hs : namesFlag name s = false := by
        simp only [absent, List.all_cons, Bool.and_eq_true, Bool.not_eq_true'] at habs
        exact habs.1
      have hr : absent name r = true := by
        simp only [absent, List.all_cons, Bool.and_eq_true] at habs
        exact habs.2
      have hlen2 : r.length ≤ n := by simp at hlen; omega
      unfold FlagSet.parseLoop at hp
      cases hscan : scanFlag s with
      | positional => simp [hscan] at hp; subst hp; rfl
      | terminator => simp [hscan] at hp; subst hp; rfl
      | bad => simp [hscan] at hp
      | flag m value =>
        have hm : m ≠ name := by
          simp only [namesFlag, hscan, beq_eq_false_iff_ne, ne_eq] at hs
          exact hs
        simp only [hscan] at hp
        cases hl : FlagSet.lookup f.formal m with
        | none =>
          simp only [hl] at hp
          split at hp <;> simp at hp
        | some old =>
          simp only [hl] at hp
          cases value with
          | some v =>
            simp only at hp
            cases hset : Value.set lib old v with
            | none => simp [hset] at hp
            | some new =>
              simp only [hset] at hp
              rw [ih r hlen2 _ g hp hr]
              exact lookup_store_ne _ _ _ _ hm
          | none =>
            simp only at hp
            cases r with
            | nil => simp at hp
            | cons v r2 =>
              simp only at hp
              have hr2 : absent name r2 = true := by
                simp only [absent, List.all_cons, Bool.and_eq_true] at hr
                exact hr.2
              have hlen3 : r2.length ≤ n := by simp at hlen2; omega
              cases hset : Value.set lib old v with
              | none => simp [hset] at hp
              | some new =>
                simp only [hset] at hp
                rw [ih r2 hlen3 _ g hp hr2]
                exact lookup_store_ne _ _ _ _ hm

theorem parseLoop_exit (lib : Lib) :
    ∀ (n : Nat) (rest : List String), rest.length ≤ n → ∀ (f : FlagSet) (status : Int)
      (printed : List Op),
      FlagSet.parseLoop lib f rest = Parsed.exit status printed →
      (status = 0 ∨ status = 2) ∧ ∀ op ∈ printed, Op.isPrivileged op = false := by
  intro n
  induction n with
  | zero =>
    intro rest hlen f status printed hp
    cases rest with
    | nil => simp [FlagSet.parseLoop] at hp
    | cons s r => simp at hlen
  | succ n ih =>
    intro rest hlen f status printed hp
    cases rest with
    | nil => simp [FlagSet.parseLoop] at hp
    | cons s r =>
      have hlen2 : r.length ≤ n := by simp at hlen; omega
      unfold FlagSet.parseLoop at hp
      cases hscan : scanFlag s with
      | positional => simp [hscan] at hp
      | terminator => simp [hscan] at hp
      | bad =>
        simp only [hscan, Parsed.exit.injEq] at hp
        obtain ⟨h1, h2⟩ := hp
        subst h1 h2
        simp [Op.isPrivileged]
      | flag m value =>
        simp only [hscan] at hp
        cases hl : FlagSet.lookup f.formal m with
        | none =>
          simp only [hl] at hp
          split at hp <;>
            (simp only [Parsed.exit.injEq] at hp
             obtain ⟨h1, h2⟩ := hp
             subst h1 h2
             simp [Op.isPrivileged])
        | some old =>
          simp only [hl] at hp
          cases value with
          | some v =>
            simp only at hp
            cases hset : Value.set lib old v with
            | none =>
              simp only [hset, Parsed.exit.injEq] at hp
              obtain ⟨h1, h2⟩ := hp
              subst h1 h2
              simp [Op.isPrivileged]
            | some new =>
              simp only [hset] at hp
              exact ih r hlen2 _ _ _ hp
          | none =>
            simp only at hp
            cases r with
            | nil =>
              simp only [Parsed.exit.injEq] at hp
              obtain ⟨h1, h2⟩ := hp
              subst h1 h2
              simp [Op.isPrivileged]
            | cons v r2 =>
              simp only at hp
              have hlen3 : r2.length ≤ n := by simp at hlen2; omega
              cases hset : Value.set lib old v with
              | none =>
                simp only [hset, Parsed.exit.injEq] at hp
                obtain ⟨h1, h2⟩ := hp
                subst h1 h2
                simp [Op.isPrivileged]
              | some new =>
                simp only [hset] at hp
                exact ih r2 hlen3 _ _ _ hp

theorem absent_string (lib : Lib) (name prog : String) (rest : List String) (f : FlagSet)
    (hp : (runFlags prog).Parse lib rest = Parsed.ok f) (ha : absent name rest = true)
    (hd : FlagSet.lookup (runFlags prog).formal name = some (Value.string "")) :
    f.getString name = "" := by
  have := parseLoop_absent lib name rest.length rest (Nat.le_refl _) _ f hp ha
  simp [FlagSet.getString, this, hd]

theorem absent_int (lib : Lib) (name prog : String) (rest : List String) (f : FlagSet)
    (hp : (runFlags prog).Parse lib rest = Parsed.ok f) (ha : absent name rest = true)
    (hd : FlagSet.lookup (runFlags prog).formal name = some (Value.int (-1))) :
    f.getInt name < 0 := by
  have := parseLoop_absent lib name rest.length rest (Nat.le_refl _) _ f hp ha
  simp [FlagSet.getInt, this, hd]

/-- C4, amended: for every command line that the flag parser accepts and in
which one of `dir`, `image`, `fstype`, `entry` is absent or empty, or `uid` or
`gid` is absent or negative, `run` prints the flag defaults and exits with
status 1, and that is all it does; a command line that the parser rejects makes
the process exit inside `Parse` with the status of package `flag` (2, or 0 for
`-h` and `-help`) after the messages of the parser, and nothing else. In both
cases no privileged call (`unshare`, `open`, `ioctl`, `mount`, `fork`) is made. -/
theorem validation_before_privileged (lib : Lib) (env : Env) (prog : String)
    (rest : List String) :
    (∀ f, (runFlags prog).Parse lib rest = Parsed.ok f →
        (absent "dir" rest = true ∨ f.getString "dir" = "")
          ∨ (absent "image" rest = true ∨ f.getString "image" = "")
          ∨ (absent "fstype" rest = true ∨ f.getString "fstype" = "")
          ∨ (absent "entry" rest = true ∨ f.getString "entry" = "")
          ∨ (absent "uid" rest = true ∨ f.getInt "uid" < 0)
          ∨ (absent "gid" rest = true ∨ f.getInt "gid" < 0) →
        run lib env (prog :: rest) = ⟨Outcome.exited 1, [Op.printDefaults]⟩)
      ∧ (∀ status printed, (runFlags prog).Parse lib rest = Parsed.exit status printed →
          run lib env (prog :: rest) = ⟨Outcome.exited status, printed⟩
            ∧ (status = 0 ∨ status = 2))
      ∧ (accepted lib (prog :: rest) = none →
          ∀ op ∈ (run lib env (prog :: rest)).trace, Op.isPrivileged op = false) := by
  refine ⟨?_, ?_, ?_⟩
  · intro f hp hbad
    have hdir : f.getString "dir" = "" ∨ f.getString "image" = "" ∨ f.getString "fstype" = ""
        ∨ f.getString "entry" = "" ∨ f.getInt "uid" < 0 ∨ f.getInt "gid" < 0 := by
      rcases hbad with (h | h) | (h | h) | (h | h) | (h | h) | (h | h) | (h | h)
      · exact Or.inl (absent_string lib _ prog rest f hp h rfl)
      · exact Or.inl h
      · exact Or.inr (Or.inl (absent_string lib _ prog rest f hp h rfl))
      · exact Or.inr (Or.inl h)
      · exact Or.inr (Or.inr (Or.inl (absent_string lib _ prog rest f hp h rfl)))
      · exact Or.inr (Or.inr (Or.inl h))
      · exact Or.inr (Or.inr (Or.inr (Or.inl
          (absent_string lib _ prog rest f hp h rfl))))
      · exact Or.inr (Or.inr (Or.inr (Or.inl h)))
      · exact Or.inr (Or.inr (Or.inr (Or.inr (Or.inl
          (absent_int lib _ prog rest f hp h rfl)))))
      · exact Or.inr (Or.inr (Or.inr (Or.inr (Or.inl h))))
      · exact Or.inr (Or.inr (Or.inr (Or.inr (Or.inr
          (absent_int lib _ prog rest f hp h rfl)))))
      · exact Or.inr (Or.inr (Or.inr (Or.inr (Or.inr h))))
    simp only [run, hp, hdir, if_true]
  · intro status printed hp
    refine ⟨by simp only [run, hp], ?_⟩
    exact (parseLoop_exit lib rest.length rest (Nat.le_refl _) _ _ _ hp).1
  · intro hacc op hop
    simp only [accepted] at hacc
    simp only [run] at hop
    cases hp : (runFlags prog).Parse lib rest with
    | exit status printed =>
      simp only [hp] at hop
      exact (parseLoop_exit lib rest.length rest (Nat.le_refl _) _ _ _ hp).2 op hop
    | ok f =>
      simp only [hp] at hacc hop
      split at hacc
      · rename_i hv
        simp only [hv, if_true, List.mem_singleton] at hop
        subst hop
        rfl
      · simp at hacc

/-- C4, on a concrete command line that gives only `-dir`. -/
theorem validation_before_privileged_witness :
    run decLib env0 ["minibox", "-dir", "/mnt"] = ⟨Outcome.exited 1, [Op.printDefaults]⟩ :=
  (validation_before_privileged decLib env0 "minibox" ["-dir", "/mnt"]).1
    { name := "minibox",
      formal := [("dir", Value.string "/mnt"), ("image", Value.string ""),
        ("fstype", Value.string ""), ("entry", Value.string ""),
        ("uid", Value.int (-1)), ("gid", Value.int (-1))],
      args := [], parsed := true }
    (by decide) (Or.inr (Or.inl (Or.inl (by decide))))

/-- C4 fails as stated: on the command line `minibox -x` all six flags are
absent, and the process exits with status 2, not 1: `Parse` meets an undefined
flag and, under `flag.ExitOnError`, exits itself. -/
theorem validation_before_privileged_counterexample :
    absent "dir" ["-x"] = true ∧ absent "image" ["-x"] = true
      ∧ absent "fstype" ["-x"] = true ∧ absent "entry" ["-x"] = true
      ∧ absent "uid" ["-x"] = true ∧ absent "gid" ["-x"] = true
      ∧ run decLib env0 ["minibox", "-x"]
          = ⟨Outcome.exited 2,
              [Op.flagError "flag provided but not defined: -%s" "x", Op.usage "minibox"]⟩
      ∧ (2 : Int) ≠ 1 := by
  decide

/-- C9, on a concrete run of the child: group 100, user 1000, entry `/bin/ls`. -/
theorem child_root_transition_order_witness :
    ['/', 'b', 'i', 'n', '/', 'l', 's'] = "/bin/ls".data.takeWhile (fun c => c ≠ NUL)
      ∧ (NUL ∉ "/bin/ls".data → ['/', 'b', 'i', 'n', '/', 'l', 's'] = "/bin/ls".data)
      ∧ [some ['/', 'b', 'i', 'n', '/', 'l', 's'], none]
          = [some ['/', 'b', 'i', 'n', '/', 'l', 's'], none]
      ∧ ∃ tail,
        (run decLib envChild cmd0).trace
            = attachTrace "img" 3 0 4 5
              ++ [Op.mount "/dev/loop0" "/mnt" "ext4" 0 "", Op.fork]
              ++ [Op.mkdir "/mnt/.old_root" 0o700,
                  Op.pivotRoot "/mnt" "/mnt/.old_root",
                  Op.chdir "/",
                  Op.unmount "/.old_root" MNT_DETACH,
                  Op.remove "/.old_root",
                  Op.setgid 100,
                  Op.setuid 1000,
                  Op.execve ['/', 'b', 'i', 'n', '/', 'l', 's']
                    [some ['/', 'b', 'i', 'n', '/', 'l', 's'], none]]
              ++ tail
          ∧ (tail = [] ∨ tail = [Op.perror "execv"]) :=
  child_root_transition_order decLib envChild cmd0 flags0 3 0 4 5
    ['/', 'b', 'i', 'n', '/', 'l', 's'] [some ['/', 'b', 'i', 'n', '/', 'l', 's'], none]
    (by decide) ⟨rfl, rfl, rfl, rfl, rfl, rfl⟩ rfl rfl (by decide) (by decide) (by decide)

/-- C10, on the concrete arguments `-l` and the empty string. -/
theorem execWrapper_rebuilds_argument_list_witness :
    ∃ ptrs : List Nat,
      execWrapperArgv 2 (cArgstr ["-l", ""])
          = some (some Ptr.path :: (ptrs.map (fun p => some (Ptr.argstr p)) ++ [none]))
        ∧ ptrs.length = 2
        ∧ ptrs.map (cstr (cArgstr ["-l", ""])) = [some ['-', 'l'], some []]
        ∧ (∀ p ∈ ptrs, ∃ n, strlenAt (cArgstr ["-l", ""]) p = some n
            ∧ p + n + 1 < (cArgstr ["-l", ""]).length)
        ∧ (cArgstr ["-l", ""]).getLast? = some NUL
        ∧ (execWrapper none (CString "/bin/ls") 2 (cArgstr ["-l", ""])).trace.head?
            = some (Op.execve ("/bin/ls".data.takeWhile fun c => c ≠ NUL)
                (some ("/bin/ls".data.takeWhile fun c => c ≠ NUL)
                  :: ([some ['-', 'l'], some []] ++ [none]))) :=
  execWrapper_rebuilds_argument_list "/bin/ls" ["-l", ""] (by decide) none

/-- C2 on the code: the command line `cmd0` is valid and carries the trailing
arguments `hello` and `-l`, which the flag set of `run` holds after parsing; the
child nevertheless hands `execve` the vector `[entry, NULL]`, because it reads
the arguments of the package-level flag set, which was never parsed. -/
theorem argument_forwarding_lost :
    accepted decLib cmd0 = some flags0
      ∧ flags0.Args = ["hello", "-l"]
      ∧ flagArgs cmd0 = []
      ∧ (run decLib envChild cmd0).outcome = Outcome.execed
      ∧ (run decLib envChild cmd0).trace.getLast?
          = some (Op.execve ['/', 'b', 'i', 'n', '/', 'l', 's']
              [some ['/', 'b', 'i', 'n', '/', 'l', 's'], none]) := by
  decide

/-- C3 on the code: `setgid` fails with `EPERM` (the raw call returns the
all-ones word), the comparison `ret < 0` on the unsigned result is false, and
the child goes on to `setuid` and `execve` without logging anything. -/
theorem setgid_failure_ignored :
    envSetgidFails.setgid.err = 1
      ∧ envSetgidFails.setgid.r1 = 2 ^ 64 - 1
      ∧ run decLib envSetgidFails cmd0
          = ⟨Outcome.execed,
             attachTrace "img" 3 0 4 5
              ++ [Op.mount "/dev/loop0" "/mnt" "ext4" 0 "", Op.fork]
              ++ [Op.mkdir "/mnt/.old_root" 0o700,
                  Op.pivotRoot "/mnt" "/mnt/.old_root",
                  Op.chdir "/",
                  Op.unmount "/.old_root" MNT_DETACH,
                  Op.remove "/.old_root",
                  Op.setgid 100,
                  Op.setuid 1000,
                  Op.execve ['/', 'b', 'i', 'n', '/', 'l', 's']
                    [some ['/', 'b', 'i', 'n', '/', 'l', 's'], none]]⟩ := by
  decide

/-- C7 on the code: `fork` fails with `EAGAIN` (the raw call returns the
all-ones word), the comparison `pid < 0` on the unsigned result is false, and
`run` waits for process -1; the error it returns is that of `wait4`, not the
error `fork` of the earliest failing step. -/
theorem fork_failure_not_surfaced :
    envForkFails.fork.err = 11
      ∧ envForkFails.fork.r1 = 2 ^ 64 - 1
      ∧ run decLib envForkFails cmd0
          = ⟨Outcome.returned 1 (some (Error.wrap (Error.errno 10) "wait4" [])),
             attachTrace "img" 3 0 4 5
              ++ [Op.mount "/dev/loop0" "/mnt" "ext4" 0 "", Op.fork, Op.wait4 (-1)]
              ++ teardownOps 3 4 5⟩
      ∧ Error.wrap (Error.errno 10) "wait4" [] ≠ Error.new "fork" [] := by
  decide

end Minibox
